import Mathlib

/-!
# Verification of the Augmented-Fruit-Ninja interaction core

Shallow embedding of the real-time interaction pipeline of the
Augmented-Fruit-Ninja repository and proofs about it:

* `GameLogic` — the scoring / combo / level state machine of
  `src/js/modules/game-logic.js`;
* `HandDetector` — the fingertip velocity-smoothing pipeline of the
  hand-detector module (`src/unnamed/part_005`);
* `CollisionDetector` — the velocity-gated, cooldown-protected slice
  detection of `src/js/modules/collision-detector.js`.

Modelling conventions: JavaScript numbers are embedded as exact
rationals (`ℚ`) where the code only performs field operations and
comparisons, and as reals (`ℝ`) where Euclidean distances
(`THREE.Vector3.distanceTo`, a square root) enter.  JavaScript `Map`s
keyed by strings are embedded as functions `String → Option _`.
Timestamps (`performance.now()`) are explicit `ℚ` parameters, in
milliseconds; `GameLogic.gameTime` is in seconds, as in the source.
-/

/-- Functional update of a string-keyed map, modelling `Map.prototype.set`. -/
def updStr {α : Type} (m : String → Option α) (k : String) (v : α) :
    String → Option α :=
  fun k' => if k' = k then some v else m k'

/-- The last `n` entries of a list, in order.  Used to describe the contents
of a bounded rolling window that is pushed at the back and shifted at the
front. -/
def lastN {α : Type} (l : List α) (n : ℕ) : List α :=
  (l.reverse.take n).reverse

/-! ## GameLogic (src/js/modules/game-logic.js) -/

/-- Mutable state of the `GameLogic` class: the fields set by its
constructor and mutated by `update`, `sliceFood` and `reset`.
`score` and `level` are integers (the source only ever assigns integer
values to them), `gameTime` is elapsed seconds, `lastSliceTime` a
millisecond timestamp. -/
structure GameLogic where
  score : ℤ
  level : ℤ
  foodsSliced : ℕ
  gameTime : ℚ
  combo : ℕ
  lastSliceTime : ℚ
deriving Repr, DecidableEq

/-- The state produced by the `GameLogic` constructor. -/
def initGameLogic : GameLogic :=
  { score := 0, level := 1, foodsSliced := 0, gameTime := 0, combo := 0,
    lastSliceTime := 0 }

/-- `this.pointsByCategory`: base points per food category.  The object is
created in the constructor and never mutated, so it is embedded as a
constant lookup table; a category absent from the object yields
`undefined`, embedded as `none`. -/
def GameLogic.pointsByCategory : String → Option ℤ
  | "fruit" => some 15
  | "main" => some 50
  | "dessert" => some 30
  | "tableware" => some 5
  | _ => none

/-- `this.specialBonuses`: per-type overrides of the category points.
All stored values are nonzero, so the JavaScript truthiness test
`if (this.specialBonuses[foodType])` coincides with key presence. -/
def GameLogic.specialBonuses : String → Option ℤ
  | "burger" => some 60
  | "donut" => some 25
  | "apple" => some 20
  | _ => none

/-- `this.comboTimeout` (milliseconds). -/
def GameLogic.comboTimeout : ℚ := 2000

/-- `GameLogic.update(deltaTime)`.  The source reads `performance.now()`
for the combo-timeout test; the wall clock is passed here as the explicit
parameter `now`. -/
def GameLogic.update (s : GameLogic) (deltaTime : ℚ) (now : ℚ) : GameLogic :=
  let gameTime := s.gameTime + deltaTime
  let level := ⌊gameTime / 30⌋ + 1
  let combo := if now - s.lastSliceTime > GameLogic.comboTimeout then 0 else s.combo
  { s with gameTime := gameTime, level := level, combo := combo }

/-- The object returned by `GameLogic.sliceFood`. -/
structure SliceResult where
  points : ℤ
  combo : ℕ
  category : String
  level : ℤ
deriving Repr, DecidableEq

/-- `GameLogic.sliceFood(foodType, foodCategory)`: base points are looked
up by category with default 15 (`this.pointsByCategory[foodCategory] || 15`),
replaced by the special bonus for the type when present, multiplied by the
current level, and — when the post-increment combo exceeds 1 — multiplied
by `min(1 + (combo - 1) * 0.1, 2.0)` and floored.  `performance.now()` is
the explicit parameter `now`. -/
def GameLogic.sliceFood (s : GameLogic) (foodType foodCategory : String)
    (now : ℚ) : GameLogic × SliceResult :=
  let basePoints : ℤ := (GameLogic.pointsByCategory foodCategory).getD 15
  let basePoints : ℤ :=
    match GameLogic.specialBonuses foodType with
    | some b => b
    | none => basePoints
  let points : ℤ := basePoints * s.level
  let combo : ℕ := s.combo + 1
  let points : ℤ :=
    if combo > 1 then
      let comboMultiplier : ℚ := min (1 + ((combo : ℚ) - 1) * 0.1) 2.0
      ⌊(points : ℚ) * comboMultiplier⌋
    else points
  let s := { s with combo := combo, lastSliceTime := now,
                    score := s.score + points,
                    foodsSliced := s.foodsSliced + 1 }
  (s, { points := points, combo := combo, category := foodCategory,
        level := s.level })

/-- `GameLogic.reset()`: zeroes the six state fields. -/
def GameLogic.reset (_s : GameLogic) : GameLogic :=
  { score := 0, level := 1, foodsSliced := 0, gameTime := 0, combo := 0,
    lastSliceTime := 0 }

/-! ### GameLogic theorems -/

/-- C5: `GameLogic.sliceFood` computes points as the special-bonus entry
for the type (fully replacing the category value), multiplied by the
current level, then — only when the post-increment combo exceeds 1 —
multiplied by `min(1 + (combo-1)*0.1, 2.0)` and floored; a burger at
level 1 with post-increment combo 1 yields 60 points, and at level 2 with
post-increment combo 3 yields 144 points. -/
theorem C5_sliceFood_points (s : GameLogic) (foodType foodCategory : String)
    (b : ℤ) (now : ℚ)
    (hb : GameLogic.specialBonuses foodType = some b) :
    ((s.sliceFood foodType foodCategory now).2.points =
      if s.combo + 1 > 1 then
        ⌊((b * s.level : ℤ) : ℚ) * min (1 + (s.combo : ℚ) * 0.1) 2.0⌋
      else b * s.level)
    ∧ ((initGameLogic.sliceFood "burger" "main" now).2.points = 60)
    ∧ ((({ initGameLogic with level := 2, combo := 2 } : GameLogic).sliceFood
          "burger" "main" now).2.points = 144) := by
  refine ⟨?_,
    by norm_num [GameLogic.sliceFood, initGameLogic, GameLogic.specialBonuses],
    by norm_num [GameLogic.sliceFood, initGameLogic, GameLogic.specialBonuses]⟩
  simp only [GameLogic.sliceFood, hb]
  rcases Nat.eq_zero_or_pos s.combo with h0 | hpos
  · simp [h0]
  · have h1 : s.combo + 1 > 1 := by omega
    simp only [h1, if_pos]
    norm_num

/-- C6: after every tick the level equals `floor(gameTime / 30) + 1`
(level 1 at elapsed time 0, level 2 at elapsed time 30), and with a
non-negative tick delta the level never decreases across a tick. -/
theorem C6_level (s : GameLogic) (dt now now' : ℚ) (h : 0 ≤ dt) :
    ((s.update dt now).level = ⌊(s.update dt now).gameTime / 30⌋ + 1)
    ∧ ((initGameLogic.update 0 now').gameTime = 0
        ∧ (initGameLogic.update 0 now').level = 1)
    ∧ ((initGameLogic.update 30 now').gameTime = 30
        ∧ (initGameLogic.update 30 now').level = 2)
    ∧ (s.level ≤ ⌊s.gameTime / 30⌋ + 1 → s.level ≤ (s.update dt now).level) := by
  refine ⟨rfl, ⟨by simp [GameLogic.update, initGameLogic], by
      simp [GameLogic.update, initGameLogic]⟩,
    ⟨by simp [GameLogic.update, initGameLogic], by
      simp [GameLogic.update, initGameLogic]⟩, ?_⟩
  intro hle
  have hmono : ⌊s.gameTime / 30⌋ ≤ ⌊(s.gameTime + dt) / 30⌋ := by
    apply Int.floor_le_floor
    apply div_le_div_of_nonneg_right ?_ (by norm_num)
    · linarith
  simp only [GameLogic.update]
  omega

/-- C7: evaluation of `GameLogic.update` at a negative `deltaTime`: the
code adds the delta unconditionally, so elapsed time becomes negative
from the initial state, and from a state at 30 elapsed seconds a delta of
-30 drops the level from 2 back to 1. -/
theorem C7_negative_delta :
    (initGameLogic.update (-1) 0).gameTime = -1
    ∧ (initGameLogic.update (-1) 0).gameTime < 0
    ∧ ((initGameLogic.update 30 0).update (-30) 0).level
        < (initGameLogic.update 30 0).level := by
  norm_num [GameLogic.update, initGameLogic, GameLogic.comboTimeout]

/-- C9: `GameLogic.reset` returns every field to its documented initial
value, so the state after reset equals the freshly constructed state. -/
theorem C9_reset (s : GameLogic) :
    s.reset = initGameLogic
    ∧ s.reset.score = 0 ∧ s.reset.level = 1 ∧ s.reset.combo = 0
    ∧ s.reset.foodsSliced = 0 ∧ s.reset.gameTime = 0
    ∧ s.reset.lastSliceTime = 0 :=
  ⟨rfl, rfl, rfl, rfl, rfl, rfl, rfl⟩

/-- C10: a slice whose category is not in the category table and whose
type has no special bonus is still scored, with default base 15 — the
same base as the `fruit` category — before level and combo multipliers. -/
theorem C10_unknown_category (s : GameLogic) (foodType foodCategory : String)
    (now : ℚ)
    (hcat : GameLogic.pointsByCategory foodCategory = none)
    (hty : GameLogic.specialBonuses foodType = none) :
    ((s.sliceFood foodType foodCategory now).2.points =
        (s.sliceFood foodType "fruit" now).2.points)
    ∧ ((s.sliceFood foodType foodCategory now).2.points =
        if s.combo + 1 > 1 then
          ⌊((15 * s.level : ℤ) : ℚ) * min (1 + (s.combo : ℚ) * 0.1) 2.0⌋
        else 15 * s.level)
    ∧ ((s.sliceFood foodType foodCategory now).1.score
        = s.score + (s.sliceFood foodType foodCategory now).2.points)
    ∧ ((s.sliceFood foodType foodCategory now).1.foodsSliced
        = s.foodsSliced + 1) := by
  have hfruit : GameLogic.pointsByCategory "fruit" = some 15 := rfl
  refine ⟨?_, ?_, ?_, ?_⟩
  · simp only [GameLogic.sliceFood, hcat, hty, hfruit, Option.getD_some,
      Option.getD_none]
  · simp only [GameLogic.sliceFood, hcat, hty, Option.getD_none]
    rcases Nat.eq_zero_or_pos s.combo with h0 | hpos
    · simp [h0]
    · have h1 : s.combo + 1 > 1 := by omega
      simp only [h1, if_pos]
      norm_num
  · rfl
  · rfl

/-! ## HandDetector (src/unnamed/part_005) -/

/-- A world-space 3D point (`THREE.Vector3`). -/
structure Vec3 where
  x : ℝ
  y : ℝ
  z : ℝ

/-- `THREE.Vector3.distanceTo`: Euclidean distance. -/
noncomputable def Vec3.distanceTo (a b : Vec3) : ℝ :=
  Real.sqrt ((a.x - b.x) ^ 2 + (a.y - b.y) ^ 2 + (a.z - b.z) ^ 2)

/-- `this.maxVelocityHistory`: number of samples in the smoothing window. -/
def maxVelocityHistory : ℕ := 5

/-- Velocity-tracking state of the `HandDetector` class:
`this.previousFingertips` (position and timestamp of the last observation
per fingertip id) and `this.velocityHistory` (rolling raw-velocity window
per fingertip id). -/
structure HandDetector where
  previousFingertips : String → Option (Vec3 × ℚ)
  velocityHistory : String → Option (List ℝ)

/-- The detector state right after construction: both maps empty. -/
def initHandDetector : HandDetector :=
  { previousFingertips := fun _ => none, velocityHistory := fun _ => none }

/-- `HandDetector.updateVelocityHistory(fingertipId, velocity)`: create the
entry when missing, push the raw velocity at the back, and shift the
oldest sample out when the window exceeds `maxVelocityHistory`. -/
def HandDetector.updateVelocityHistory (s : HandDetector) (fingertipId : String)
    (velocity : ℝ) : HandDetector :=
  let history := (s.velocityHistory fingertipId).getD []
  let history := history ++ [velocity]
  let history := if history.length > maxVelocityHistory then history.tail else history
  { s with velocityHistory := updStr s.velocityHistory fingertipId history }

/-- `HandDetector.getSmoothedVelocity(fingertipId)`: the arithmetic mean of
the stored window, `0` when the window is missing or empty. -/
noncomputable def HandDetector.getSmoothedVelocity (s : HandDetector)
    (fingertipId : String) : ℝ :=
  match s.velocityHistory fingertipId with
  | none => 0
  | some history => if history.length = 0 then 0 else history.sum / history.length

/-- `HandDetector.calculateFingertipVelocity(fingertipId, currentPosition,
currentTime)`: on the first observation of an id, record the position and
return `0`; afterwards compute the raw velocity (distance over elapsed
seconds), update the previous-position record, push the raw velocity into
the history and return the smoothed velocity.  Returns the reported
velocity together with the updated detector state. -/
noncomputable def HandDetector.calculateFingertipVelocity (s : HandDetector)
    (fingertipId : String) (currentPosition : Vec3) (currentTime : ℚ) :
    ℝ × HandDetector :=
  match s.previousFingertips fingertipId with
  | none =>
      (0, { s with previousFingertips :=
              updStr s.previousFingertips fingertipId (currentPosition, currentTime) })
  | some previousData =>
      let deltaTime : ℚ := (currentTime - previousData.2) / 1000
      let deltaPosition : ℝ := currentPosition.distanceTo previousData.1
      let velocity : ℝ := if deltaTime > 0 then deltaPosition / (deltaTime : ℝ) else 0
      let s := { s with previousFingertips := updStr s.previousFingertips fingertipId (currentPosition, currentTime) }
      let s := s.updateVelocityHistory fingertipId velocity
      (s.getSmoothedVelocity fingertipId, s)

/-- A fingertip record as built by `extractFingertips`. -/
structure Fingertip where
  position : Vec3
  type : String
  velocity : ℝ
  id : String

/-- `this.fingertipIndices`: only the index fingertip (landmark 8). -/
def fingertipIndices : List ℕ := [8]

/-- `HandDetector.getFingertipType(index)`. -/
def getFingertipType (index : ℕ) : String :=
  if index = 8 then "index" else "unknown"

/-- `this.videoWidth` (pixels). -/
def videoWidth : ℝ := 1280

/-- `this.videoHeight` (pixels). -/
def videoHeight : ℝ := 720

/-- `HandDetector.convertLandmarksToWorld`, per landmark: horizontal flip
and linear rescale to the [-4, 4] world range, vertical flip and rescale
to [-3, 3], MediaPipe relative depth scaled by -2. -/
noncomputable def convertLandmarkToWorld (landmark : Vec3) : Vec3 :=
  let screenX := landmark.x * videoWidth
  let screenY := landmark.y * videoHeight
  { x := -((screenX / videoWidth) * 2 - 1) * 4,
    y := -((screenY / videoHeight) * 2 - 1) * 3,
    z := -landmark.z * 2 }

/-- The fingertip id `` `${handId}_${index}` ``. -/
def fingertipId (handId index : ℕ) : String :=
  toString handId ++ "_" ++ toString index

/-- `HandDetector.extractFingertips(landmarks, handId)`: for each tracked
landmark index present in the landmark list, compute the velocity and
build the fingertip record. -/
noncomputable def HandDetector.extractFingertips (s : HandDetector)
    (landmarks : List Vec3) (handId : ℕ) (currentTime : ℚ) :
    List Fingertip × HandDetector :=
  fingertipIndices.foldl
    (fun acc index =>
      match landmarks[index]? with
      | none => acc
      | some currentPosition =>
          let fid := fingertipId handId index
          let r := acc.2.calculateFingertipVelocity fid currentPosition currentTime
          (acc.1 ++ [{ position := currentPosition, type := getFingertipType index,
                       velocity := r.1, id := fid }], r.2))
    ([], s)

/-- One detected hand of a MediaPipe result: the ordered normalized
landmark list plus the top handedness category name and its score. -/
structure HandInput where
  landmarks : List Vec3
  handedness : String
  confidence : ℚ

/-- A `this.hands` entry as built by `processHandResults`. -/
structure Hand where
  id : ℕ
  handedness : String
  confidence : ℚ
  landmarks : List Vec3
  fingertips : List Fingertip

/-- The fingertip ids present in the current frame's hands, as collected
by `cleanupVelocityHistory`. -/
def currentFingertipIds (hands : List Hand) : List String :=
  (hands.map (fun hand => hand.fingertips.map Fingertip.id)).flatten

/-- `HandDetector.cleanupVelocityHistory()`: every id with a
previous-position entry that is absent from the current frame's detection
set has its previous-position and velocity-history entries deleted
immediately. -/
def HandDetector.cleanupVelocityHistory (s : HandDetector)
    (currentIds : List String) : HandDetector :=
  { previousFingertips := fun id =>
      if (s.previousFingertips id).isSome ∧ id ∉ currentIds then none
      else s.previousFingertips id,
    velocityHistory := fun id =>
      if (s.previousFingertips id).isSome ∧ id ∉ currentIds then none
      else s.velocityHistory id }

/-- One iteration of the `processHandResults` loop over the indexed
detection results: convert the hand's landmarks to world space, extract
its fingertips (updating the velocity state), and append the built hand. -/
noncomputable def processHandStep (currentTime : ℚ)
    (acc : List Hand × HandDetector) (p : ℕ × HandInput) :
    List Hand × HandDetector :=
  let worldLandmarks := p.2.landmarks.map convertLandmarkToWorld
  let e := acc.2.extractFingertips worldLandmarks p.1 currentTime
  (acc.1 ++ [{ id := p.1, handedness := p.2.handedness,
               confidence := p.2.confidence, landmarks := worldLandmarks,
               fingertips := e.1 }], e.2)

/-- `HandDetector.processHandResults(results)`: rebuild `this.hands` from
the detection result (converting landmarks to world space and extracting
fingertips with velocities), then clean up velocity data of fingertips no
longer detected. -/
noncomputable def HandDetector.processHandResults (s : HandDetector)
    (results : List HandInput) (currentTime : ℚ) : List Hand × HandDetector :=
  let r := results.enum.foldl (processHandStep currentTime) ([], s)
  (r.1, r.2.cleanupVelocityHistory (currentFingertipIds r.1))

/-- A fingertip as returned by `getAllFingertips`, tagged with its hand's
handedness — the shape consumed by the collision detector. -/
structure CFingertip where
  position : Vec3
  type : String
  handedness : String
  velocity : ℝ
  id : String

/-- `HandDetector.getAllFingertips()`, as a function of `this.hands`. -/
def getAllFingertips (hands : List Hand) : List CFingertip :=
  (hands.map (fun hand => hand.fingertips.map
    (fun ft => ({ position := ft.position, type := ft.type,
                  handedness := hand.handedness, velocity := ft.velocity,
                  id := ft.id } : CFingertip)))).flatten

/-- Feeding a sequence of timed observations of one fingertip id through
`calculateFingertipVelocity`, returning the last reported velocity and
the final detector state. -/
noncomputable def runObservations (fid : String) (s : HandDetector)
    (obs : List (Vec3 × ℚ)) : ℝ × HandDetector :=
  obs.foldl (fun acc ob => acc.2.calculateFingertipVelocity fid ob.1 ob.2) (0, s)

/-- The raw instantaneous velocities of an observation sequence: Euclidean
distance between consecutive positions divided by the elapsed time in
seconds (timestamps are in milliseconds). -/
noncomputable def rawVelocities : List (Vec3 × ℚ) → List ℝ
  | (p, t) :: (q, u) :: rest =>
      (Vec3.distanceTo q p / (((u - t) / 1000 : ℚ) : ℝ))
        :: rawVelocities ((q, u) :: rest)
  | _ => []

/-- Arithmetic mean of a list of reals. -/
noncomputable def listMean (l : List ℝ) : ℝ := l.sum / l.length

/-! ### Rolling-window lemmas -/

/-- The length of the last-`n` suffix. -/
theorem lastN_length {α : Type} (l : List α) (n : ℕ) :
    (lastN l n).length = min n l.length := by
  simp [lastN]

/-- A list short enough is its own last-`n` suffix. -/
theorem lastN_of_length_le {α : Type} (l : List α) (n : ℕ) (h : l.length ≤ n) :
    lastN l n = l := by
  simp only [lastN]
  rw [List.take_of_length_le (by simpa using h), List.reverse_reverse]

/-- Taking the last `n` of a last-`n` suffix extended on the right is the
last `n` of the whole extended list. -/
theorem lastN_append {α : Type} (l m : List α) (n : ℕ) :
    lastN (lastN l n ++ m) n = lastN (l ++ m) n := by
  simp only [lastN, List.reverse_append, List.reverse_reverse]
  rw [List.take_append_eq_append_take, List.take_append_eq_append_take,
    List.take_take]
  have h3 : (n - m.reverse.length) ⊓ n = n - m.reverse.length := by omega
  rw [h3]

/-- Keeping only the last `min l.length n` entries is the same as keeping
the last `n`. -/
theorem lastN_min_length {α : Type} (l : List α) (n : ℕ) :
    lastN l (min l.length n) = lastN l n := by
  simp only [lastN]
  rw [List.take_eq_take.mpr]
  simp only [List.length_reverse]
  omega

/-- Pushing at the back and shifting at the front when the window
overflows computes exactly the last-`n` suffix, provided the window was
within its bound. -/
theorem push_shift_eq_lastN {α : Type} (h : List α) (v : α) (n : ℕ)
    (hle : h.length ≤ n) :
    (if (h ++ [v]).length > n then (h ++ [v]).tail else h ++ [v])
      = lastN (h ++ [v]) n := by
  rcases lt_or_eq_of_le hle with hlt | heq
  · rw [if_neg (by simp; omega), lastN_of_length_le]
    simp
    omega
  · cases h with
    | nil =>
        simp only [List.length_nil] at heq
        subst heq
        simp [lastN]
    | cons a t =>
        have hn : 0 < n := by simp at heq; omega
        rw [if_pos (by simp only [List.length_append, List.length_cons,
          List.length_singleton, List.length_nil] at heq ⊢; omega)]
        simp only [List.cons_append, List.tail_cons, lastN, List.reverse_append,
          List.reverse_cons, List.reverse_nil, List.nil_append]
        have hre : v :: (t.reverse ++ [a]) = (v :: t.reverse) ++ [a] := by simp
        rw [hre, List.take_left']
        · simp
        · simp only [List.length_cons, List.length_reverse] at heq ⊢
          omega

/-! ### Velocity pipeline lemmas -/

/-- Effect of `calculateFingertipVelocity` on an id that already has a
previous observation, with strictly increasing timestamps: the
previous-position record is replaced, the raw velocity
`distance / elapsed-seconds` is pushed into the (capped) window, and the
reported velocity is the smoothed velocity of the updated state. -/
theorem calc_subsequent (s : HandDetector) (fid : String) (p0 : Vec3) (t0 : ℚ)
    (q : Vec3) (u : ℚ) (hprev : s.previousFingertips fid = some (p0, t0))
    (ht : t0 < u) (hle : ((s.velocityHistory fid).getD []).length ≤ 5) :
    (s.calculateFingertipVelocity fid q u).2.previousFingertips fid = some (q, u)
    ∧ (s.calculateFingertipVelocity fid q u).2.velocityHistory fid
        = some (lastN (((s.velocityHistory fid).getD [])
            ++ [Vec3.distanceTo q p0 / (((u - t0) / 1000 : ℚ) : ℝ)]) 5)
    ∧ (s.calculateFingertipVelocity fid q u).1
        = (s.calculateFingertipVelocity fid q u).2.getSmoothedVelocity fid := by
  have hdt : ((u - t0) / 1000 : ℚ) > 0 := by
    apply div_pos
    · linarith
    · norm_num
  refine ⟨?_, ?_, ?_⟩
  · simp [HandDetector.calculateFingertipVelocity, hprev,
      HandDetector.updateVelocityHistory, updStr]
  · simp only [HandDetector.calculateFingertipVelocity, hprev,
      HandDetector.updateVelocityHistory, updStr, maxVelocityHistory,
      if_pos hdt]
    rw [if_pos trivial, push_shift_eq_lastN _ _ _ hle]
  · simp only [HandDetector.calculateFingertipVelocity, hprev]

/-- The initial accumulator velocity of the observation fold is
irrelevant for a nonempty observation list. -/
theorem runObservations_fst_irrel (fid : String) (obs : List (Vec3 × ℚ))
    (x : ℝ) (s : HandDetector) (hne : obs ≠ []) :
    obs.foldl (fun acc ob => acc.2.calculateFingertipVelocity fid ob.1 ob.2)
        (x, s)
      = runObservations fid s obs := by
  cases obs with
  | nil => exact absurd rfl hne
  | cons o t => rfl

/-- Length of the raw-velocity list of an observation sequence. -/
theorem rawVelocities_length (obs : List (Vec3 × ℚ)) :
    (rawVelocities obs).length = obs.length - 1 := by
  induction obs with
  | nil => simp [rawVelocities]
  | cons a t ih =>
      cases t with
      | nil => simp [rawVelocities]
      | cons b t' =>
          obtain ⟨p, tp⟩ := a
          obtain ⟨q, u⟩ := b
          simp only [rawVelocities, List.length_cons] at ih ⊢
          omega

/-- Running a nonempty observation sequence of one id from a state that
already holds a previous observation `(p0, t0)` and an in-bound window:
the final window is the last-5 suffix of the old window extended by all
raw instantaneous velocities, and the last reported velocity is the
smoothed velocity of the final state. -/
theorem run_loop (fid : String) :
    ∀ (obs : List (Vec3 × ℚ)) (s : HandDetector) (p0 : Vec3) (t0 : ℚ),
      s.previousFingertips fid = some (p0, t0) →
      ((s.velocityHistory fid).getD []).length ≤ 5 →
      List.Chain' (fun a b => a.2 < b.2) ((p0, t0) :: obs) →
      obs ≠ [] →
      (runObservations fid s obs).2.velocityHistory fid
          = some (lastN (((s.velocityHistory fid).getD [])
              ++ rawVelocities ((p0, t0) :: obs)) 5)
        ∧ (runObservations fid s obs).1
          = (runObservations fid s obs).2.getSmoothedVelocity fid := by
  intro obs
  induction obs with
  | nil => exact fun s p0 t0 _ _ _ hne => absurd rfl hne
  | cons ob rest ih =>
      intro s p0 t0 hprev hle hchain _
      obtain ⟨q, u⟩ := ob
      have ht : t0 < u := (List.chain'_cons.mp hchain).1
      have hstep := calc_subsequent s fid p0 t0 q u hprev ht hle
      cases rest with
      | nil =>
          refine ⟨?_, hstep.2.2⟩
          have : runObservations fid s [(q, u)]
              = s.calculateFingertipVelocity fid q u := rfl
          rw [this, hstep.2.1]
          simp [rawVelocities]
      | cons r1 rest' =>
          have hrun : runObservations fid s ((q, u) :: r1 :: rest')
              = runObservations fid
                  (s.calculateFingertipVelocity fid q u).2 (r1 :: rest') := by
            simp only [runObservations, List.foldl_cons]
          have hgd : ((s.calculateFingertipVelocity fid q u).2.velocityHistory
              fid).getD []
              = lastN (((s.velocityHistory fid).getD [])
                  ++ [Vec3.distanceTo q p0 / (((u - t0) / 1000 : ℚ) : ℝ)]) 5 := by
            rw [hstep.2.1]
            rfl
          have hle2 : (((s.calculateFingertipVelocity fid q u).2.velocityHistory
              fid).getD []).length ≤ 5 := by
            rw [hgd, lastN_length]
            omega
          have hih := ih (s.calculateFingertipVelocity fid q u).2 q u hstep.1
            hle2 (List.chain'_cons.mp hchain).2 (by simp)
          rw [hrun]
          refine ⟨?_, hih.2⟩
          rw [hih.1, hgd, lastN_append, List.append_assoc]
          have hraw : rawVelocities ((p0, t0) :: (q, u) :: r1 :: rest')
              = (Vec3.distanceTo q p0 / (((u - t0) / 1000 : ℚ) : ℝ))
                  :: rawVelocities ((q, u) :: r1 :: rest') := rfl
          rw [hraw]
          rfl

/-- The detector state recorded by the first observation of an id: the
previous-position record is seeded and the velocity history untouched. -/
def seedState (s : HandDetector) (fid : String) (q : Vec3) (u : ℚ) :
    HandDetector :=
  { previousFingertips := updStr s.previousFingertips fid (q, u),
    velocityHistory := s.velocityHistory }

/-- On the first observation of an id, `calculateFingertipVelocity`
returns velocity 0 and only seeds the previous-position record. -/
theorem calc_first (s : HandDetector) (fid : String) (q : Vec3) (u : ℚ)
    (hp : s.previousFingertips fid = none) :
    s.calculateFingertipVelocity fid q u = (0, seedState s fid q u) := by
  simp [HandDetector.calculateFingertipVelocity, hp, seedState]

/-- C1: for a fingertip id observed `N ≥ 2` times at strictly increasing
timestamps, starting from a state with no data for that id, the velocity
reported by `calculateFingertipVelocity` on the `N`-th observation equals
the arithmetic mean of the last `min (N-1) 5` raw instantaneous
velocities (Euclidean distance between consecutive world positions
divided by elapsed seconds), the rolling window holding at most 5
entries. -/
theorem C1_velocity_smoothing (s : HandDetector) (fid : String)
    (obs : List (Vec3 × ℚ))
    (hp : s.previousFingertips fid = none)
    (hh : s.velocityHistory fid = none)
    (hlen : 2 ≤ obs.length)
    (hmono : List.Chain' (fun a b => a.2 < b.2) obs) :
    (runObservations fid s obs).1
      = listMean (lastN (rawVelocities obs) (min (obs.length - 1) 5))
    ∧ ((runObservations fid s obs).2.velocityHistory fid).getD []
      = lastN (rawVelocities obs) (min (obs.length - 1) 5) := by
  cases obs with
  | nil => simp at hlen
  | cons o1 rest =>
      cases rest with
      | nil => simp at hlen
      | cons o2 rest' =>
          obtain ⟨p0, t0⟩ := o1
          have hrun : runObservations fid s ((p0, t0) :: o2 :: rest')
              = runObservations fid (seedState s fid p0 t0) (o2 :: rest') := by
            simp only [runObservations, List.foldl_cons]
            rw [calc_first s fid p0 t0 hp]
          have hprev1 : (seedState s fid p0 t0).previousFingertips fid
              = some (p0, t0) := by
            simp [seedState, updStr]
          have hh1 : (seedState s fid p0 t0).velocityHistory fid = none := hh
          have hloop := run_loop fid (o2 :: rest') (seedState s fid p0 t0)
            p0 t0 hprev1 (by rw [hh1]; simp) hmono (by simp)
          rw [hh1] at hloop
          simp only [Option.getD_none, List.nil_append] at hloop
          have hminform :
              lastN (rawVelocities ((p0, t0) :: o2 :: rest'))
                  (min (((p0, t0) :: o2 :: rest').length - 1) 5)
              = lastN (rawVelocities ((p0, t0) :: o2 :: rest')) 5 := by
            rw [show ((p0, t0) :: o2 :: rest').length - 1
                = (rawVelocities ((p0, t0) :: o2 :: rest')).length from by
              rw [rawVelocities_length]]
            exact lastN_min_length _ _
          have hLpos :
              0 < (lastN (rawVelocities ((p0, t0) :: o2 :: rest')) 5).length := by
            rw [lastN_length, rawVelocities_length]
            simp
          refine ⟨?_, ?_⟩
          · rw [hrun, hloop.2, hminform]
            simp only [HandDetector.getSmoothedVelocity, hloop.1]
            rw [if_neg (by omega), listMean]
          · rw [hrun, hloop.1, hminform]
            rfl

/-- Witness for C1: a concrete three-observation run (raw velocities 2
and 4, reported velocity their mean). -/
theorem C1_witness :
    (runObservations "0_8" initHandDetector
        [(⟨0, 0, 0⟩, 0), (⟨1, 0, 0⟩, 500), (⟨3, 0, 0⟩, 1000)]).1
      = listMean (lastN
          (rawVelocities [(⟨0, 0, 0⟩, 0), (⟨1, 0, 0⟩, 500), (⟨3, 0, 0⟩, 1000)])
          (min ([((⟨0, 0, 0⟩ : Vec3), (0 : ℚ)), (⟨1, 0, 0⟩, 500),
              (⟨3, 0, 0⟩, 1000)].length - 1) 5)) :=
  (C1_velocity_smoothing initHandDetector "0_8"
    [(⟨0, 0, 0⟩, 0), (⟨1, 0, 0⟩, 500), (⟨3, 0, 0⟩, 1000)] rfl rfl
    (by simp) (by norm_num [List.chain'_cons])).1

/-- C2 counterexample: at the claim's own scenario — id first observed at
(0,0,0) at t = 0 ms and then at (1,0,0) at t = 500 ms — the code reports
smoothed velocity 2, not the claimed mean `[0, 2.0] = 1.0`: the first
observation does not seed the velocity history. -/
theorem C2_counterexample :
    (runObservations "0_8" initHandDetector
        [(⟨0, 0, 0⟩, 0), (⟨1, 0, 0⟩, 500)]).1 = 2
    ∧ (runObservations "0_8" initHandDetector
        [(⟨0, 0, 0⟩, 0), (⟨1, 0, 0⟩, 500)]).1 ≠ 1
    ∧ (initHandDetector.calculateFingertipVelocity "0_8" ⟨0, 0, 0⟩
        0).2.velocityHistory "0_8" = none := by
  have h2 : (runObservations "0_8" initHandDetector
      [(⟨0, 0, 0⟩, 0), (⟨1, 0, 0⟩, 500)]).1 = 2 := by
    simp only [runObservations, List.foldl_cons, List.foldl_nil,
      HandDetector.calculateFingertipVelocity, initHandDetector,
      HandDetector.updateVelocityHistory, HandDetector.getSmoothedVelocity,
      updStr, maxVelocityHistory, Vec3.distanceTo]
    norm_num
  refine ⟨h2, by rw [h2]; norm_num, ?_⟩
  simp [HandDetector.calculateFingertipVelocity, initHandDetector]

/-- C2 (amended): the first-ever observation of a fingertip id yields
reported velocity 0 and seeds only the previous-position record — the
velocity history is left untouched; consequently in the spec's scenario
the instantaneous velocity is 2.0 units/sec and the reported smoothed
velocity after the two samples is the mean of `[2.0]`, i.e. 2.0. -/
theorem C2_first_observation (s : HandDetector) (fid : String) (q : Vec3)
    (u : ℚ) (hp : s.previousFingertips fid = none) :
    (s.calculateFingertipVelocity fid q u).1 = 0
    ∧ (s.calculateFingertipVelocity fid q u).2.previousFingertips fid
        = some (q, u)
    ∧ (s.calculateFingertipVelocity fid q u).2.velocityHistory
        = s.velocityHistory
    ∧ rawVelocities [((⟨0, 0, 0⟩ : Vec3), (0 : ℚ)), (⟨1, 0, 0⟩, 500)] = [2]
    ∧ (runObservations "0_8" initHandDetector
        [(⟨0, 0, 0⟩, 0), (⟨1, 0, 0⟩, 500)]).1 = 2 := by
  refine ⟨?_, ?_, ?_, ?_, C2_counterexample.1⟩
  · rw [calc_first s fid q u hp]
  · rw [calc_first s fid q u hp]
    simp [seedState, updStr]
  · rw [calc_first s fid q u hp]
    rfl
  · simp only [rawVelocities, Vec3.distanceTo]
    norm_num

/-- Witness for C2 (amended) at the scenario input. -/
theorem C2_witness :
    (initHandDetector.calculateFingertipVelocity "0_8" ⟨0, 0, 0⟩ 0).1 = 0
    ∧ (runObservations "0_8" initHandDetector
        [(⟨0, 0, 0⟩, 0), (⟨1, 0, 0⟩, 500)]).1 = 2 :=
  ⟨(C2_first_observation initHandDetector "0_8" ⟨0, 0, 0⟩ 0 rfl).1,
   (C2_first_observation initHandDetector "0_8" ⟨0, 0, 0⟩ 0 rfl).2.2.2.2⟩

/-- Witness for C5: the level-2, post-increment-combo-3 burger slice. -/
theorem C5_witness :
    GameLogic.specialBonuses "burger" = some 60
    ∧ (({ initGameLogic with level := 2, combo := 2 } : GameLogic).sliceFood
        "burger" "main" 0).2.points = 144 :=
  ⟨rfl, (C5_sliceFood_points { initGameLogic with level := 2, combo := 2 }
    "burger" "main" 60 0 rfl).2.2⟩

/-- Witness for C6: a concrete non-negative tick. -/
theorem C6_witness :
    (0 : ℚ) ≤ 1
    ∧ (initGameLogic.update 1 0).level
        = ⌊(initGameLogic.update 1 0).gameTime / 30⌋ + 1 :=
  ⟨by norm_num, (C6_level initGameLogic 1 0 0 (by norm_num)).1⟩

/-- Witness for C10: a slice with an unknown category and type. -/
theorem C10_witness :
    GameLogic.pointsByCategory "meat" = none
    ∧ GameLogic.specialBonuses "steak" = none
    ∧ (initGameLogic.sliceFood "steak" "meat" 0).2.points
        = (initGameLogic.sliceFood "steak" "fruit" 0).2.points :=
  ⟨rfl, rfl, (C10_unknown_category initGameLogic "steak" "meat" 0 rfl rfl).1⟩

/-! ### Frame-level fingertip lifecycle lemmas -/

/-- `calculateFingertipVelocity` only writes the entries of the id it is
called for. -/
theorem calc_preserves (s : HandDetector) (fid k : String) (q : Vec3) (u : ℚ)
    (hk : k ≠ fid) :
    (s.calculateFingertipVelocity fid q u).2.previousFingertips k
        = s.previousFingertips k
    ∧ (s.calculateFingertipVelocity fid q u).2.velocityHistory k
        = s.velocityHistory k := by
  cases h : s.previousFingertips fid with
  | none =>
      rw [calc_first s fid q u h]
      exact ⟨by simp [seedState, updStr, hk], rfl⟩
  | some pd =>
      constructor <;>
        simp [HandDetector.calculateFingertipVelocity, h,
          HandDetector.updateVelocityHistory, updStr, hk]

/-- `extractFingertips` when the index-finger landmark is missing. -/
theorem extractFingertips_none (s : HandDetector) (landmarks : List Vec3)
    (handId : ℕ) (t : ℚ) (h : landmarks[8]? = none) :
    s.extractFingertips landmarks handId t = ([], s) := by
  simp [HandDetector.extractFingertips, fingertipIndices, h]

/-- `extractFingertips` when the index-finger landmark is present. -/
theorem extractFingertips_some (s : HandDetector) (landmarks : List Vec3)
    (handId : ℕ) (t : ℚ) (pos : Vec3) (h : landmarks[8]? = some pos) :
    s.extractFingertips landmarks handId t
      = ([{ position := pos, type := getFingertipType 8,
            velocity := (s.calculateFingertipVelocity (fingertipId handId 8)
              pos t).1,
            id := fingertipId handId 8 }],
         (s.calculateFingertipVelocity (fingertipId handId 8) pos t).2) := by
  simp [HandDetector.extractFingertips, fingertipIndices, h]

/-- `getAllFingertips` distributes over hand-list append. -/
theorem getAllFingertips_append (a b : List Hand) :
    getAllFingertips (a ++ b) = getAllFingertips a ++ getAllFingertips b := by
  simp [getAllFingertips]

/-- `currentFingertipIds` distributes over hand-list append. -/
theorem currentFingertipIds_append (a b : List Hand) :
    currentFingertipIds (a ++ b)
      = currentFingertipIds a ++ currentFingertipIds b := by
  simp [currentFingertipIds]

/-- The `processHandResults` loop only appends hands. -/
theorem processFold_hands_prefix (t : ℚ) :
    ∀ (ps : List (ℕ × HandInput)) (acc : List Hand × HandDetector),
      ∃ l, (ps.foldl (processHandStep t) acc).1 = acc.1 ++ l := by
  intro ps
  induction ps with
  | nil => exact fun acc => ⟨[], by simp⟩
  | cons p ps' ih =>
      intro acc
      obtain ⟨l, hl⟩ := ih (processHandStep t acc p)
      obtain ⟨x, hx⟩ : ∃ x, (processHandStep t acc p).1 = acc.1 ++ [x] := ⟨_, rfl⟩
      exact ⟨[x] ++ l, by rw [List.foldl_cons, hl, hx, List.append_assoc]⟩

/-- If an id is absent from the hands built by the `processHandResults`
loop, the loop leaves that id's entries untouched. -/
theorem processFold_absent (t : ℚ) (fid : String) :
    ∀ (ps : List (ℕ × HandInput)) (acc : List Hand × HandDetector),
      fid ∉ currentFingertipIds ((ps.foldl (processHandStep t) acc).1) →
      (ps.foldl (processHandStep t) acc).2.previousFingertips fid
          = acc.2.previousFingertips fid
      ∧ (ps.foldl (processHandStep t) acc).2.velocityHistory fid
          = acc.2.velocityHistory fid := by
  intro ps
  induction ps with
  | nil =>
      intro acc _
      exact ⟨rfl, rfl⟩
  | cons p ps' ih =>
      intro acc habs
      rw [List.foldl_cons] at habs ⊢
      have hpre : fid ∉ currentFingertipIds ((processHandStep t acc p).1) := by
        obtain ⟨l, hl⟩ := processFold_hands_prefix t ps' (processHandStep t acc p)
        rw [hl, currentFingertipIds_append] at habs
        exact fun hmem => habs (List.mem_append.mpr (Or.inl hmem))
      have hstep : (processHandStep t acc p).2.previousFingertips fid
            = acc.2.previousFingertips fid
          ∧ (processHandStep t acc p).2.velocityHistory fid
            = acc.2.velocityHistory fid := by
        cases hlm : (p.2.landmarks.map convertLandmarkToWorld)[8]? with
        | none =>
            have he := extractFingertips_none acc.2 _ p.1 t hlm
            simp [processHandStep, he]
        | some pos =>
            have he := extractFingertips_some acc.2 _ p.1 t pos hlm
            have hid : fid ≠ fingertipId p.1 8 := by
              intro hfe
              apply hpre
              simp only [processHandStep, he, currentFingertipIds_append]
              simp [currentFingertipIds, hfe]
            simp only [processHandStep, he]
            exact calc_preserves acc.2 (fingertipId p.1 8) fid pos t hid
      obtain ⟨hih1, hih2⟩ := ih (processHandStep t acc p) habs
      exact ⟨hih1.trans hstep.1, hih2.trans hstep.2⟩

/-- If an id has no previous-position entry and no fingertip with that id
has been produced yet, then the first fingertip with that id produced by
the `processHandResults` loop carries velocity 0. -/
theorem processFold_first_velocity (t : ℚ) (fid : String) :
    ∀ (ps : List (ℕ × HandInput)) (acc : List Hand × HandDetector),
      acc.2.previousFingertips fid = none →
      (getAllFingertips acc.1).filter (fun ft => ft.id == fid) = [] →
      ∀ ft, ((getAllFingertips ((ps.foldl (processHandStep t) acc).1)).filter
          (fun ft' => ft'.id == fid)).head? = some ft → ft.velocity = 0 := by
  intro ps
  induction ps with
  | nil =>
      intro acc _ hemp ft hft
      rw [List.foldl_nil, hemp] at hft
      simp at hft
  | cons p ps' ih =>
      intro acc hnone hemp ft hft
      rw [List.foldl_cons] at hft
      cases hlm : (p.2.landmarks.map convertLandmarkToWorld)[8]? with
      | none =>
          have he := extractFingertips_none acc.2 _ p.1 t hlm
          refine ih (processHandStep t acc p) ?_ ?_ ft hft
          · simp only [processHandStep, he]
            exact hnone
          · simp only [processHandStep, he, getAllFingertips_append,
              List.filter_append, hemp]
            simp [getAllFingertips]
      | some pos =>
          have he := extractFingertips_some acc.2 _ p.1 t pos hlm
          by_cases hideq : fingertipId p.1 8 = fid
          · have hv : (acc.2.calculateFingertipVelocity (fingertipId p.1 8)
                pos t).1 = 0 := by
              rw [hideq, calc_first acc.2 fid pos t hnone]
            obtain ⟨l, hl⟩ :=
              processFold_hands_prefix t ps' (processHandStep t acc p)
            rw [hl, getAllFingertips_append, List.filter_append] at hft
            have hsteplist :
                (getAllFingertips ((processHandStep t acc p).1)).filter
                    (fun ft' => ft'.id == fid)
                  = [{ position := pos, type := getFingertipType 8,
                       handedness := p.2.handedness,
                       velocity := (acc.2.calculateFingertipVelocity
                         (fingertipId p.1 8) pos t).1,
                       id := fingertipId p.1 8 }] := by
              simp only [processHandStep, he, getAllFingertips_append,
                List.filter_append, hemp]
              simp [getAllFingertips, hideq]
            rw [hsteplist] at hft
            rw [List.cons_append, List.head?_cons] at hft
            have hfteq := (Option.some.inj hft).symm
            rw [hfteq]
            exact hv
          · refine ih (processHandStep t acc p) ?_ ?_ ft hft
            · simp only [processHandStep, he]
              exact ((calc_preserves acc.2 (fingertipId p.1 8) fid pos t
                (fun hq => hideq hq.symm)).1).trans hnone
            · simp only [processHandStep, he, getAllFingertips_append,
                List.filter_append, hemp]
              simp [getAllFingertips, hideq]

/-- C8: after a `processHandResults` call, a fingertip id absent from the
current frame's detection set has its previous-position and
velocity-history entries removed (given the reachable-state invariant
that a velocity-history entry only exists alongside a previous-position
entry); consequently the first fingertip reported with that id by any
subsequent `processHandResults` call — a re-detection — carries velocity
exactly 0, like a brand-new id. -/
theorem C8_cleanup_and_redetection (s : HandDetector)
    (results1 : List HandInput) (t1 : ℚ) (fid : String)
    (hinv : (s.velocityHistory fid).isSome
      → (s.previousFingertips fid).isSome)
    (habsent : fid ∉ currentFingertipIds
      (s.processHandResults results1 t1).1) :
    ((s.processHandResults results1 t1).2.previousFingertips fid = none
      ∧ (s.processHandResults results1 t1).2.velocityHistory fid = none)
    ∧ ∀ (results2 : List HandInput) (t2 : ℚ),
        ((((getAllFingertips
              ((s.processHandResults results1 t1).2.processHandResults
                results2 t2).1).filter (fun ft => ft.id == fid)).map
            CFingertip.velocity).head?).getD 0 = 0 := by
  have habs' : fid ∉ currentFingertipIds
      ((results1.enum.foldl (processHandStep t1) ([], s)).1) := habsent
  have hpres := processFold_absent t1 fid results1.enum ([], s) habs'
  have h1 : (s.processHandResults results1 t1).2.previousFingertips fid = none
      ∧ (s.processHandResults results1 t1).2.velocityHistory fid = none := by
    cases hsp : s.previousFingertips fid with
    | none =>
        have hsh : s.velocityHistory fid = none := by
          rcases hh : s.velocityHistory fid with _ | l
          · rfl
          · have := hinv (by rw [hh]; rfl)
            rw [hsp] at this
            simp at this
        constructor
        · show (HandDetector.cleanupVelocityHistory _ _).previousFingertips
            fid = none
          simp only [HandDetector.cleanupVelocityHistory, hpres.1, hsp]
          simp
        · show (HandDetector.cleanupVelocityHistory _ _).velocityHistory
            fid = none
          simp only [HandDetector.cleanupVelocityHistory, hpres.1, hpres.2,
            hsp, hsh]
          simp
    | some pd =>
        constructor
        · show (HandDetector.cleanupVelocityHistory _ _).previousFingertips
            fid = none
          simp only [HandDetector.cleanupVelocityHistory, hpres.1, hsp]
          simp [habs']
        · show (HandDetector.cleanupVelocityHistory _ _).velocityHistory
            fid = none
          simp only [HandDetector.cleanupVelocityHistory, hpres.1, hsp]
          simp [habs']
  refine ⟨h1, ?_⟩
  intro results2 t2
  have hzero := processFold_first_velocity t2 fid results2.enum
    ([], (s.processHandResults results1 t1).2) h1.1
    (by simp [getAllFingertips])
  cases hhead : ((getAllFingertips
      (((s.processHandResults results1 t1).2.processHandResults
        results2 t2).1)).filter (fun ft => ft.id == fid)).head? with
  | none =>
      rw [List.head?_map, hhead]
      rfl
  | some ft =>
      rw [List.head?_map, hhead]
      have := hzero ft hhead
      simp [this]

/-- Witness for C8: after an empty frame the entries of id `0_8` are
gone, and a later frame with one hand re-detects it with velocity 0. -/
theorem C8_witness :
    ((initHandDetector.processHandResults [] 0).2.previousFingertips "0_8"
        = none
      ∧ (initHandDetector.processHandResults [] 0).2.velocityHistory "0_8"
        = none)
    ∧ ((((getAllFingertips
          ((initHandDetector.processHandResults [] 0).2.processHandResults
            [{ landmarks := List.replicate 9 ⟨0, 0, 0⟩, handedness := "Right",
               confidence := 1 }] 5).1).filter
          (fun ft => ft.id == "0_8")).map CFingertip.velocity).head?).getD 0
        = 0 :=
  ⟨(C8_cleanup_and_redetection initHandDetector [] 0 "0_8"
      (by intro h; simp [initHandDetector] at h)
      (by simp [HandDetector.processHandResults, currentFingertipIds])).1,
   (C8_cleanup_and_redetection initHandDetector [] 0 "0_8"
      (by intro h; simp [initHandDetector] at h)
      (by simp [HandDetector.processHandResults, currentFingertipIds])).2
     [{ landmarks := List.replicate 9 ⟨0, 0, 0⟩, handedness := "Right",
        confidence := 1 }] 5⟩

/-! ## CollisionDetector (src/js/modules/collision-detector.js) -/

/-- An axis-aligned bounding box (`THREE.Box3`). -/
structure Box3 where
  min : Vec3
  max : Vec3

/-- `THREE.Box3.containsPoint`: inclusive axis-aligned containment. -/
def Box3.containsPoint (b : Box3) (p : Vec3) : Prop :=
  b.min.x ≤ p.x ∧ p.x ≤ b.max.x ∧ b.min.y ≤ p.y ∧ p.y ≤ b.max.y
    ∧ b.min.z ≤ p.z ∧ p.z ≤ b.max.z

noncomputable instance (b : Box3) (p : Vec3) : Decidable (b.containsPoint p) :=
  instDecidableAnd

/-- `THREE.Box3.expandByScalar`. -/
noncomputable def Box3.expandByScalar (b : Box3) (s : ℝ) : Box3 :=
  { min := ⟨b.min.x - s, b.min.y - s, b.min.z - s⟩,
    max := ⟨b.max.x + s, b.max.y + s, b.max.z + s⟩ }

/-- A sliceable food target.  Its three.js mesh lives outside the core;
`new THREE.Box3().setFromObject(food.mesh)` is embedded as the mesh's raw
world-space bounding box `meshBox` carried on the record, and
`food.mesh.uuid` as `uuid`. -/
structure Food where
  uuid : String
  type : String
  category : String
  meshBox : Box3

/-- A `this.slicedFoods` cooldown record. -/
structure SliceData where
  time : ℚ
  fingertip : String
  handedness : String

/-- A `this.lastCollisionInfo` record. -/
structure CollisionInfo where
  foodType : String
  fingertipType : String
  handedness : String
  position : Vec3
  velocity : ℝ
  wasSliced : Bool

/-- A `this.recentSlices` entry. -/
structure RecentSlice where
  position : Vec3
  foodType : String
  points : ℤ
  time : ℚ

/-- `this.collisionCooldown` (ms between collisions on the same food). -/
def collisionCooldown : ℚ := 200

/-- `this.cacheTimeout` (ms to cache bounding boxes). -/
def cacheTimeout : ℚ := 100

/-- `this.maxRecentSlices`. -/
def maxRecentSlices : ℕ := 10

/-- Mutable state of the `CollisionDetector` class. -/
structure CollisionDetector where
  velocityThreshold : ℝ
  slicedFoods : String → Option SliceData
  recentSlices : List RecentSlice
  lastCollisionTime : ℚ
  lastCollisionInfo : Option CollisionInfo
  totalCollisions : ℕ
  collisionsByFingertip : String → ℕ
  boundingBoxCache : String → Option (Box3 × ℚ)

/-- The constructor state: threshold 0.3, all maps and lists empty. -/
noncomputable def initCollisionDetector : CollisionDetector :=
  { velocityThreshold := 0.3, slicedFoods := fun _ => none,
    recentSlices := [], lastCollisionTime := 0, lastCollisionInfo := none,
    totalCollisions := 0, collisionsByFingertip := fun _ => 0,
    boundingBoxCache := fun _ => none }

/-- `CollisionDetector.getFoodExpansion(foodType)`: per-type bounding-box
expansion margin with default 0.2; all stored values are nonzero so the
JavaScript `||` fallback coincides with key presence. -/
noncomputable def getFoodExpansion : String → ℝ
  | "apple" => 0.2
  | "apple_red" => 0.25
  | "banana" => 0.25
  | "peach" => 0.25
  | "donut" => 0.2
  | "burger" => 0.15
  | "plate" => 0.1
  | _ => 0.2

/-- `CollisionDetector.getFoodBoundingBox(food)`: return the cached box
when it is younger than `cacheTimeout`, otherwise recompute the mesh box
expanded by the per-type margin and cache it. -/
noncomputable def CollisionDetector.getFoodBoundingBox (s : CollisionDetector)
    (food : Food) (currentTime : ℚ) : Box3 × CollisionDetector :=
  match s.boundingBoxCache food.uuid with
  | some cached =>
      if currentTime - cached.2 < cacheTimeout then (cached.1, s)
      else
        let box := food.meshBox.expandByScalar (getFoodExpansion food.type)
        (box, { s with boundingBoxCache := updStr s.boundingBoxCache food.uuid (box, currentTime) })
  | none =>
      let box := food.meshBox.expandByScalar (getFoodExpansion food.type)
      (box, { s with boundingBoxCache := updStr s.boundingBoxCache food.uuid (box, currentTime) })

/-- `CollisionDetector.updateCollisionStatus(food, fingertip, wasSliced)`. -/
def CollisionDetector.updateCollisionStatus (s : CollisionDetector)
    (food : Food) (fingertip : CFingertip) (wasSliced : Bool) (now : ℚ) :
    CollisionDetector :=
  let info : CollisionInfo :=
    { foodType := food.type, fingertipType := fingertip.type,
      handedness := fingertip.handedness, position := fingertip.position,
      velocity := fingertip.velocity, wasSliced := wasSliced }
  { s with lastCollisionTime := now, lastCollisionInfo := some info }

/-- `CollisionDetector.addRecentSlice(position, foodType, points)`. -/
def CollisionDetector.addRecentSlice (s : CollisionDetector) (position : Vec3)
    (foodType : String) (points : ℤ) (now : ℚ) : CollisionDetector :=
  let recentSlices := s.recentSlices
    ++ [{ position := position, foodType := foodType, points := points,
          time := now }]
  let recentSlices := if recentSlices.length > maxRecentSlices
    then recentSlices.tail else recentSlices
  { s with recentSlices := recentSlices }

/-- A slice event: the outward effect of a successful `handleFoodSlice`
on one target — target identity, the gating fingertip's velocity and
handedness, the slice position, and the points awarded downstream. -/
structure SliceEvent where
  targetId : String
  targetType : String
  targetCategory : String
  fingertipVelocity : ℝ
  handedness : String
  position : Vec3
  points : ℤ

/-- `CollisionDetector.handleFoodSlice(food, fingertip)`: record the
cooldown entry, set the collision status to a slice, update the
statistics, remove the food from the live list (`indexOf` locates the
processed food by object identity, embedded as its index `i`), score it
through `GameLogic.sliceFood`, and store the slice for visual effects. -/
noncomputable def handleFoodSlice (s : CollisionDetector) (g : GameLogic)
    (foods : List Food) (i : ℕ) (food : Food) (fingertip : CFingertip)
    (now : ℚ) : CollisionDetector × GameLogic × List Food × SliceEvent :=
  let s := { s with slicedFoods := updStr s.slicedFoods food.uuid { time := now, fingertip := fingertip.type, handedness := fingertip.handedness } }
  let s := s.updateCollisionStatus food fingertip true now
  let fingertipKey := fingertip.handedness ++ "_" ++ fingertip.type
  let s := { s with totalCollisions := s.totalCollisions + 1, collisionsByFingertip := fun k => if k = fingertipKey then s.collisionsByFingertip k + 1 else s.collisionsByFingertip k }
  let r := g.sliceFood food.type food.category now
  let s := s.addRecentSlice fingertip.position food.type r.2.points now
  (s, r.1, foods.eraseIdx i,
   { targetId := food.uuid, targetType := food.type,
     targetCategory := food.category,
     fingertipVelocity := fingertip.velocity,
     handedness := fingertip.handedness, position := fingertip.position,
     points := r.2.points })

/-- The inner fingertip loop of `checkCollisions` for one food: the first
contained fingertip at or above the velocity threshold triggers the slice
and stops the loop; a contained fingertip below the threshold records a
touch-only collision status and the loop continues.  Returns the updated
state, whether any containment was detected, and the slicing fingertip
when one cleared the gate. -/
noncomputable def fingertipLoop (box : Box3) (threshold : ℝ) (food : Food)
    (now : ℚ) : List CFingertip → CollisionDetector → Bool →
    CollisionDetector × Bool × Option CFingertip
  | [], s, collisionDetected => (s, collisionDetected, none)
  | fingertip :: rest, s, collisionDetected =>
      if box.containsPoint fingertip.position then
        if fingertip.velocity ≥ threshold then (s, true, some fingertip)
        else fingertipLoop box threshold food now rest
          (s.updateCollisionStatus food fingertip false now) true
      else fingertipLoop box threshold food now rest s collisionDetected

/-- The cooldown skip test of `checkCollisions`: a food is skipped when a
slice record for it exists and is younger than `collisionCooldown`. -/
def inCooldown (s : CollisionDetector) (uuid : String) (now : ℚ) : Bool :=
  match s.slicedFoods uuid with
  | some sliceData => decide (now - sliceData.time < collisionCooldown)
  | none => false

/-- The body of the `checkCollisions` food loop for the food at index
`i`: skip it while in cooldown, otherwise fetch its (possibly cached)
expanded bounding box and run the fingertip loop; a fingertip clearing
the velocity gate triggers `handleFoodSlice`. -/
noncomputable def processFood (fingertips : List CFingertip) (now : ℚ)
    (s : CollisionDetector) (g : GameLogic) (foods : List Food) (i : ℕ)
    (food : Food) (collisionDetected : Bool) :
    CollisionDetector × GameLogic × List Food × Option SliceEvent × Bool :=
  if inCooldown s food.uuid now then (s, g, foods, none, collisionDetected)
  else
    let b := s.getFoodBoundingBox food now
    match fingertipLoop b.1 b.2.velocityThreshold food now fingertips b.2
        collisionDetected with
    | (s2, cd2, some fingertip) =>
        let r := handleFoodSlice s2 g foods i food fingertip now
        (r.1, r.2.1, r.2.2.1, some r.2.2.2, cd2)
    | (s2, cd2, none) => (s2, g, foods, none, cd2)

/-- `processFood` never grows the food list. -/
theorem processFood_length_le (fingertips : List CFingertip) (now : ℚ)
    (s : CollisionDetector) (g : GameLogic) (foods : List Food) (i : ℕ)
    (food : Food) (cd : Bool) :
    (processFood fingertips now s g foods i food cd).2.2.1.length
      ≤ foods.length := by
  simp only [processFood]
  split
  · simp
  · split
    · simp only [handleFoodSlice]
      exact (List.eraseIdx_sublist foods i).length_le
    · simp

/-- The `checkCollisions` loop over the food array.  JavaScript `for..of`
iteration is index-based and `handleFoodSlice` splices the sliced food
out of the same array, so the loop advances its index over the evolving
list exactly as the array iterator does. -/
noncomputable def checkLoop (fingertips : List CFingertip) (now : ℚ)
    (foods : List Food) (i : ℕ) (s : CollisionDetector) (g : GameLogic)
    (events : List SliceEvent) (collisionDetected : Bool) :
    CollisionDetector × GameLogic × List Food × List SliceEvent × Bool :=
  if h : i < foods.length then
    let r := processFood fingertips now s g foods i (foods.get ⟨i, h⟩)
      collisionDetected
    checkLoop fingertips now r.2.2.1 (i + 1) r.1 r.2.1
      (events ++ (r.2.2.2.1).toList) r.2.2.2.2
  else (s, g, foods, events, collisionDetected)
termination_by foods.length - i
decreasing_by
  have := processFood_length_le fingertips now s g foods i (foods.get ⟨i, h⟩)
    collisionDetected
  omega

/-- `CollisionDetector.clearCollisionStatus()`: the last collision status
is kept visible for 300 ms before being cleared. -/
def CollisionDetector.clearCollisionStatus (s : CollisionDetector)
    (now : ℚ) : CollisionDetector :=
  match s.lastCollisionInfo with
  | some _ =>
      if now - s.lastCollisionTime > 300 then { s with lastCollisionInfo := none }
      else s
  | none => s

/-- `CollisionDetector.checkCollisions(fingertips, foods)`: run the food
loop and clear the collision status when no containment was detected. -/
noncomputable def CollisionDetector.checkCollisions (s : CollisionDetector)
    (g : GameLogic) (fingertips : List CFingertip) (foods : List Food)
    (now : ℚ) : CollisionDetector × GameLogic × List Food × List SliceEvent :=
  let r := checkLoop fingertips now foods 0 s g [] false
  let s2 := if r.2.2.2.2 = false then r.1.clearCollisionStatus now else r.1
  (s2, r.2.1, r.2.2.1, r.2.2.2.1)

/-- `CollisionDetector.cleanupSlicedFoods()`: drop cooldown records older
than `collisionCooldown`. -/
def CollisionDetector.cleanupSlicedFoods (s : CollisionDetector) (now : ℚ) :
    CollisionDetector :=
  { s with slicedFoods := fun uuid =>
      match s.slicedFoods uuid with
      | some sliceData =>
          if now - sliceData.time > collisionCooldown then none
          else some sliceData
      | none => none }

/-- `CollisionDetector.cleanupRecentSlices()`: keep slices younger than
their 2-second lifetime. -/
def CollisionDetector.cleanupRecentSlices (s : CollisionDetector) (now : ℚ) :
    CollisionDetector :=
  { s with recentSlices := s.recentSlices.filter (fun slice => decide (now - slice.time < 2000)) }

/-- `CollisionDetector.cleanupBoundingBoxCache()`: drop cache entries
older than `cacheTimeout`. -/
def CollisionDetector.cleanupBoundingBoxCache (s : CollisionDetector)
    (now : ℚ) : CollisionDetector :=
  { s with boundingBoxCache := fun foodId =>
      match s.boundingBoxCache foodId with
      | some cached =>
          if now - cached.2 > cacheTimeout then none else some cached
      | none => none }

/-- `CollisionDetector.update()`: with no hands detected only the status
decay runs; otherwise check collisions against the current fingertips
and foods and then run the cleanups.  Returns the new detector and game
states, the surviving food list, and this frame's slice events. -/
noncomputable def CollisionDetector.update (s : CollisionDetector)
    (g : GameLogic) (hasHands : Bool) (fingertips : List CFingertip)
    (foods : List Food) (now : ℚ) :
    CollisionDetector × GameLogic × List Food × List SliceEvent :=
  if !hasHands then (s.clearCollisionStatus now, g, foods, []) else
    let r := s.checkCollisions g fingertips foods now
    let s2 := ((r.1.cleanupSlicedFoods now).cleanupRecentSlices
      now).cleanupBoundingBoxCache now
    (s2, r.2.1, r.2.2.1, r.2.2.2)

/-- One orchestrated collision frame: the inputs the detector pulls from
its collaborators plus the frame timestamp. -/
structure Frame where
  hasHands : Bool
  fingertips : List CFingertip
  foods : List Food
  now : ℚ

/-- State threading of `CollisionDetector.update` over successive
frames. -/
noncomputable def stepFrame (p : CollisionDetector × GameLogic) (f : Frame) :
    CollisionDetector × GameLogic :=
  ((CollisionDetector.update p.1 p.2 f.hasHands f.fingertips f.foods f.now).1,
   (CollisionDetector.update p.1 p.2 f.hasHands f.fingertips f.foods
     f.now).2.1)

/-- The slice events emitted by one `update` call from a given state. -/
noncomputable def frameEvents (p : CollisionDetector × GameLogic)
    (f : Frame) : List SliceEvent :=
  (CollisionDetector.update p.1 p.2 f.hasHands f.fingertips f.foods
    f.now).2.2.2

/-! ### Collision lemmas -/

/-- The fingertip loop never touches the cooldown map. -/
theorem fingertipLoop_slicedFoods (box : Box3) (th : ℝ) (food : Food)
    (now : ℚ) :
    ∀ (fts : List CFingertip) (s : CollisionDetector) (cd : Bool),
      (fingertipLoop box th food now fts s cd).1.slicedFoods
        = s.slicedFoods := by
  intro fts
  induction fts with
  | nil =>
      intro s cd
      rfl
  | cons ft rest ih =>
      intro s cd
      simp only [fingertipLoop]
      split
      · split
        · rfl
        · exact ih _ _
      · exact ih _ _

/-- `getFoodBoundingBox` only writes the bounding-box cache. -/
theorem getFoodBoundingBox_state (s : CollisionDetector) (food : Food)
    (t : ℚ) :
    (s.getFoodBoundingBox food t).2.slicedFoods = s.slicedFoods
    ∧ (s.getFoodBoundingBox food t).2.velocityThreshold = s.velocityThreshold
    ∧ (s.getFoodBoundingBox food t).2.lastCollisionInfo
        = s.lastCollisionInfo := by
  simp only [CollisionDetector.getFoodBoundingBox]
  split
  · split
    · exact ⟨rfl, rfl, rfl⟩
    · exact ⟨rfl, rfl, rfl⟩
  · exact ⟨rfl, rfl, rfl⟩

/-- The fingertip loop returns a slicing fingertip exactly when some
fingertip in the list is contained in the box and at or above the
velocity threshold. -/
theorem fingertipLoop_some_iff (box : Box3) (th : ℝ) (food : Food)
    (now : ℚ) :
    ∀ (fts : List CFingertip) (s : CollisionDetector) (cd : Bool),
      (∃ ft, (fingertipLoop box th food now fts s cd).2.2 = some ft)
        ↔ ∃ ft ∈ fts, box.containsPoint ft.position ∧ ft.velocity ≥ th := by
  intro fts
  induction fts with
  | nil =>
      intro s cd
      simp [fingertipLoop]
  | cons ft rest ih =>
      intro s cd
      simp only [fingertipLoop]
      by_cases hc : box.containsPoint ft.position
      · rw [if_pos hc]
        by_cases hv : ft.velocity ≥ th
        · rw [if_pos hv]
          simp [hc, hv]
        · rw [if_neg hv]
          rw [ih _ _]
          simp [hc, hv]
      · rw [if_neg hc]
        rw [ih _ _]
        simp [hc]

/-- When every contained fingertip is below the threshold, a containment
leaves a touch-only (`wasSliced = false`) collision status. -/
theorem fingertipLoop_touch (box : Box3) (th : ℝ) (food : Food) (now : ℚ) :
    ∀ (fts : List CFingertip) (s : CollisionDetector) (cd : Bool),
      (∀ ft ∈ fts, box.containsPoint ft.position → ft.velocity < th) →
      ((∃ ft ∈ fts, box.containsPoint ft.position)
        ∨ ∃ info, s.lastCollisionInfo = some info ∧ info.wasSliced = false) →
      ∃ info, (fingertipLoop box th food now fts s cd).1.lastCollisionInfo
          = some info ∧ info.wasSliced = false := by
  intro fts
  induction fts with
  | nil =>
      intro s cd _ hdisj
      rcases hdisj with ⟨ft, hft, _⟩ | h
      · simp at hft
      · exact h
  | cons ft rest ih =>
      intro s cd hslow hdisj
      simp only [fingertipLoop]
      by_cases hc : box.containsPoint ft.position
      · rw [if_pos hc]
        have hv : ¬ ft.velocity ≥ th := by
          have := hslow ft (by simp) hc
          exact not_le.mpr this
        rw [if_neg hv]
        refine ih _ _ (fun ft' h' hc' => hslow ft' (by simp [h']) hc') ?_
        right
        exact ⟨_, rfl, rfl⟩
      · rw [if_neg hc]
        refine ih _ _ (fun ft' h' hc' => hslow ft' (by simp [h']) hc') ?_
        rcases hdisj with ⟨ft', hft', hc'⟩ | h
        · rcases List.mem_cons.mp hft' with rfl | hmem
          · exact absurd hc' hc
          · exact Or.inl ⟨ft', hmem, hc'⟩
        · exact Or.inr h

/-- A food in cooldown is skipped entirely: `processFood` returns its
inputs unchanged and emits nothing. -/
theorem processFood_skip (fts : List CFingertip) (now : ℚ)
    (s : CollisionDetector) (g : GameLogic) (foods : List Food) (i : ℕ)
    (food : Food) (cd : Bool) (hcd : inCooldown s food.uuid now = true) :
    processFood fts now s g foods i food cd = (s, g, foods, none, cd) := by
  simp only [processFood, hcd]
  rfl

/-- `processFood` leaves the cooldown entries of every other food
untouched. -/
theorem processFood_slicedFoods_other (fts : List CFingertip) (now : ℚ)
    (s : CollisionDetector) (g : GameLogic) (foods : List Food) (i : ℕ)
    (food : Food) (cd : Bool) (u : String) (hne : food.uuid ≠ u) :
    (processFood fts now s g foods i food cd).1.slicedFoods u
      = s.slicedFoods u := by
  simp only [processFood]
  split
  · rfl
  · rcases hfl : fingertipLoop (s.getFoodBoundingBox food now).1
        (s.getFoodBoundingBox food now).2.velocityThreshold food now fts
        (s.getFoodBoundingBox food now).2 cd with ⟨s2, cd2, ev⟩
    have hs2 : s2.slicedFoods = s.slicedFoods := by
      have h1 := fingertipLoop_slicedFoods (s.getFoodBoundingBox food now).1
        (s.getFoodBoundingBox food now).2.velocityThreshold food now fts
        (s.getFoodBoundingBox food now).2 cd
      rw [hfl] at h1
      rw [h1, (getFoodBoundingBox_state s food now).1]
    cases ev with
    | none =>
        simp only [hfl]
        rw [hs2]
    | some ft =>
        simp only [hfl, handleFoodSlice, CollisionDetector.updateCollisionStatus,
          CollisionDetector.addRecentSlice, updStr]
        simp [hs2]
        intro h
        exact absurd h.symm hne

/-- Every event emitted by `processFood` names the processed food. -/
theorem processFood_event_targetId (fts : List CFingertip) (now : ℚ)
    (s : CollisionDetector) (g : GameLogic) (foods : List Food) (i : ℕ)
    (food : Food) (cd : Bool) (e : SliceEvent)
    (he : (processFood fts now s g foods i food cd).2.2.2.1 = some e) :
    e.targetId = food.uuid := by
  simp only [processFood] at he
  split at he
  · simp at he
  · rcases hfl : fingertipLoop (s.getFoodBoundingBox food now).1
        (s.getFoodBoundingBox food now).2.velocityThreshold food now fts
        (s.getFoodBoundingBox food now).2 cd with ⟨s2, cd2, ev⟩
    rw [hfl] at he
    cases ev with
    | none => simp at he
    | some ft =>
        simp only [handleFoodSlice] at he
        have := Option.some.inj he
        rw [← this]

/-- A slice emitted by `processFood` marks the food with a cooldown
record stamped at the current time. -/
theorem processFood_event_marks (fts : List CFingertip) (now : ℚ)
    (s : CollisionDetector) (g : GameLogic) (foods : List Food) (i : ℕ)
    (food : Food) (cd : Bool) (e : SliceEvent)
    (he : (processFood fts now s g foods i food cd).2.2.2.1 = some e) :
    ∃ rec, (processFood fts now s g foods i food cd).1.slicedFoods food.uuid
        = some rec ∧ rec.time = now := by
  simp only [processFood] at he ⊢
  split at he
  · simp at he
  · rename_i hcond
    rw [if_neg hcond]
    rcases hfl : fingertipLoop (s.getFoodBoundingBox food now).1
        (s.getFoodBoundingBox food now).2.velocityThreshold food now fts
        (s.getFoodBoundingBox food now).2 cd with ⟨s2, cd2, ev⟩
    cases ev with
    | none =>
        rw [hfl] at he
        simp at he
    | some ft =>
        dsimp only
        simp only [handleFoodSlice, CollisionDetector.updateCollisionStatus,
          CollisionDetector.addRecentSlice, updStr]
        simp

/-- Unfolding equation of `checkLoop`. -/
theorem checkLoop_eq (fts : List CFingertip) (now : ℚ) (foods : List Food)
    (i : ℕ) (s : CollisionDetector) (g : GameLogic)
    (events : List SliceEvent) (cd : Bool) :
    checkLoop fts now foods i s g events cd
      = if h : i < foods.length then
          let r := processFood fts now s g foods i (foods.get ⟨i, h⟩) cd
          checkLoop fts now r.2.2.1 (i + 1) r.1 r.2.1
            (events ++ (r.2.2.2.1).toList) r.2.2.2.2
        else (s, g, foods, events, cd) := by
  rw [checkLoop]

/-- While a cooldown record younger than the cooldown window exists for a
target id, the food loop emits no event for that target and keeps the
record unchanged. -/
theorem checkLoop_blocked (fts : List CFingertip) (now : ℚ) (u : String)
    (d : SliceData) (hd2 : now - d.time < collisionCooldown) :
    ∀ (n : ℕ) (foods : List Food) (i : ℕ) (s : CollisionDetector)
      (g : GameLogic) (events : List SliceEvent) (cd : Bool),
      foods.length - i ≤ n →
      s.slicedFoods u = some d →
      (checkLoop fts now foods i s g events cd).1.slicedFoods u = some d
      ∧ ∀ e ∈ (checkLoop fts now foods i s g events cd).2.2.2.1,
          e ∈ events ∨ e.targetId ≠ u := by
  intro n
  induction n with
  | zero =>
      intro foods i s g events cd hn hs
      rw [checkLoop_eq, dif_neg (by omega)]
      exact ⟨hs, fun e he => Or.inl he⟩
  | succ n ih =>
      intro foods i s g events cd hn hs
      by_cases h : i < foods.length
      · rw [checkLoop_eq, dif_pos h]
        by_cases hu : (foods.get ⟨i, h⟩).uuid = u
        · have hcd : inCooldown s (foods.get ⟨i, h⟩).uuid now = true := by
            rw [hu]
            simp [inCooldown, hs, hd2]
          rw [processFood_skip fts now s g foods i _ cd hcd]
          have hstep := ih foods (i + 1) s g
            (events ++ (none : Option SliceEvent).toList) cd (by omega) hs
          simpa using hstep
        · dsimp only
          rcases hR : processFood fts now s g foods i (foods.get ⟨i, h⟩) cd
            with ⟨s', g', foods', ev', cd'⟩
          have hso := processFood_slicedFoods_other fts now s g foods i
            (foods.get ⟨i, h⟩) cd u hu
          rw [hR] at hso
          have hlen := processFood_length_le fts now s g foods i
            (foods.get ⟨i, h⟩) cd
          rw [hR] at hlen
          have hrec := ih foods' (i + 1) s' g' (events ++ ev'.toList) cd'
            (by simp at hlen; omega) (by exact hso.trans hs)
          refine ⟨hrec.1, fun e he => ?_⟩
          rcases hrec.2 e he with hmem | hne
          · rcases List.mem_append.mp hmem with h1 | h2
            · exact Or.inl h1
            · right
              cases ev' with
              | none => simp at h2
              | some e' =>
                  simp at h2
                  rw [h2]
                  rw [processFood_event_targetId fts now s g foods i
                    (foods.get ⟨i, h⟩) cd e' (by rw [hR])]
                  exact hu
          · exact Or.inr hne
      · rw [checkLoop_eq, dif_neg h]
        exact ⟨hs, fun e he => Or.inl he⟩

/-- Any target id appearing among the events collected by the food loop
has, in the loop's final state, a cooldown record stamped at the current
frame time. -/
theorem checkLoop_mark (fts : List CFingertip) (now : ℚ) (u : String) :
    ∀ (n : ℕ) (foods : List Food) (i : ℕ) (s : CollisionDetector)
      (g : GameLogic) (events : List SliceEvent) (cd : Bool),
      foods.length - i ≤ n →
      (u ∈ events.map SliceEvent.targetId →
        ∃ rec, s.slicedFoods u = some rec ∧ rec.time = now) →
      (u ∈ ((checkLoop fts now foods i s g events cd).2.2.2.1).map
          SliceEvent.targetId →
        ∃ rec, (checkLoop fts now foods i s g events cd).1.slicedFoods u
            = some rec ∧ rec.time = now) := by
  intro n
  induction n with
  | zero =>
      intro foods i s g events cd hn hinv
      rw [checkLoop_eq, dif_neg (by omega)]
      exact hinv
  | succ n ih =>
      intro foods i s g events cd hn hinv
      by_cases h : i < foods.length
      · rw [checkLoop_eq, dif_pos h]
        dsimp only
        rcases hR : processFood fts now s g foods i (foods.get ⟨i, h⟩) cd
          with ⟨s', g', foods', ev', cd'⟩
        have hlen := processFood_length_le fts now s g foods i
          (foods.get ⟨i, h⟩) cd
        rw [hR] at hlen
        refine ih foods' (i + 1) s' g' (events ++ ev'.toList) cd'
          (by simp at hlen; omega) ?_
        intro hm
        rw [List.map_append, List.mem_append] at hm
        rcases hm with hm1 | hm2
        · obtain ⟨rec, hrec, hrt⟩ := hinv hm1
          by_cases hu : (foods.get ⟨i, h⟩).uuid = u
          · have hcd : inCooldown s (foods.get ⟨i, h⟩).uuid now = true := by
              rw [hu]
              simp [inCooldown, hrec, hrt, collisionCooldown]
            rw [processFood_skip fts now s g foods i _ cd hcd] at hR
            obtain ⟨hs', hg', hf', hev', hcd'⟩ := by
              simpa [Prod.ext_iff] using hR
            exact ⟨rec, by rw [← hs']; exact hrec, hrt⟩
          · have hso := processFood_slicedFoods_other fts now s g foods i
              (foods.get ⟨i, h⟩) cd u hu
            rw [hR] at hso
            exact ⟨rec, hso.trans hrec, hrt⟩
        · cases ev' with
          | none => simp at hm2
          | some e' =>
              simp at hm2
              have htid := processFood_event_targetId fts now s g foods i
                (foods.get ⟨i, h⟩) cd e' (by rw [hR])
              obtain ⟨rec, hrec, hrt⟩ := processFood_event_marks fts now s g
                foods i (foods.get ⟨i, h⟩) cd e' (by rw [hR])
              rw [hR] at hrec
              refine ⟨rec, ?_, hrt⟩
              rw [show u = (foods.get ⟨i, h⟩).uuid from by rw [hm2, htid]]
              exact hrec
      · rw [checkLoop_eq, dif_neg h]
        exact hinv

/-- `clearCollisionStatus` does not touch the cooldown map. -/
theorem clearCollisionStatus_slicedFoods (s : CollisionDetector) (now : ℚ) :
    (s.clearCollisionStatus now).slicedFoods = s.slicedFoods := by
  simp only [CollisionDetector.clearCollisionStatus]
  split
  · split
    · rfl
    · rfl
  · rfl

/-- `cleanupSlicedFoods` keeps records not older than the cooldown. -/
theorem cleanupSlicedFoods_keep (s : CollisionDetector) (now : ℚ)
    (u : String) (rec : SliceData) (hrec : s.slicedFoods u = some rec)
    (hy : ¬ now - rec.time > collisionCooldown) :
    (s.cleanupSlicedFoods now).slicedFoods u = some rec := by
  simp [CollisionDetector.cleanupSlicedFoods, hrec, hy]

/-- The events returned by `checkCollisions` are the food loop's. -/
theorem checkCollisions_events (s : CollisionDetector) (g : GameLogic)
    (fts : List CFingertip) (foods : List Food) (now : ℚ) :
    (s.checkCollisions g fts foods now).2.2.2
      = (checkLoop fts now foods 0 s g [] false).2.2.2.1 := rfl

/-- The cooldown map returned by `checkCollisions` is the food loop's. -/
theorem checkCollisions_slicedFoods (s : CollisionDetector) (g : GameLogic)
    (fts : List CFingertip) (foods : List Food) (now : ℚ) :
    (s.checkCollisions g fts foods now).1.slicedFoods
      = (checkLoop fts now foods 0 s g [] false).1.slicedFoods := by
  simp only [CollisionDetector.checkCollisions]
  split
  · exact clearCollisionStatus_slicedFoods _ _
  · rfl

/-- `CollisionDetector.update` with hands present, unfolded. -/
theorem update_true_eq (s : CollisionDetector) (g : GameLogic)
    (fts : List CFingertip) (foods : List Food) (now : ℚ) :
    CollisionDetector.update s g true fts foods now
      = ((((s.checkCollisions g fts foods now).1.cleanupSlicedFoods
            now).cleanupRecentSlices now).cleanupBoundingBoxCache now,
         (s.checkCollisions g fts foods now).2.1,
         (s.checkCollisions g fts foods now).2.2.1,
         (s.checkCollisions g fts foods now).2.2.2) := rfl

/-- A slice event emitted by one `update` call leaves a cooldown record
stamped at the frame time in the updated state. -/
theorem update_mark (s : CollisionDetector) (g : GameLogic) (hasHands : Bool)
    (fts : List CFingertip) (foods : List Food) (now : ℚ) (u : String)
    (hm : u ∈ ((CollisionDetector.update s g hasHands fts foods
        now).2.2.2).map SliceEvent.targetId) :
    ∃ rec, (CollisionDetector.update s g hasHands fts foods
        now).1.slicedFoods u = some rec ∧ rec.time = now := by
  cases hasHands with
  | false => simp [CollisionDetector.update] at hm
  | true =>
      rw [update_true_eq] at hm ⊢
      rw [checkCollisions_events] at hm
      obtain ⟨rec, hrec, hrt⟩ := checkLoop_mark fts now u foods.length foods 0
        s g [] false (by omega) (by intro hz; simp at hz) hm
      refine ⟨rec, ?_, hrt⟩
      show ((((s.checkCollisions g fts foods now).1.cleanupSlicedFoods
        now).cleanupRecentSlices now).cleanupBoundingBoxCache
        now).slicedFoods u = some rec
      have : ((s.checkCollisions g fts foods now).1.cleanupSlicedFoods
          now).slicedFoods u = some rec := by
        apply cleanupSlicedFoods_keep
        · rw [checkCollisions_slicedFoods]
          exact hrec
        · rw [hrt]
          norm_num [collisionCooldown]
      exact this

/-- While a cooldown record younger than the window exists for a target,
one `update` call emits no event for that target and keeps the record. -/
theorem update_blocked (s : CollisionDetector) (g : GameLogic)
    (hasHands : Bool) (fts : List CFingertip) (foods : List Food) (now : ℚ)
    (u : String) (d : SliceData) (hsd : s.slicedFoods u = some d)
    (_h1 : d.time ≤ now) (h2 : now - d.time < collisionCooldown) :
    (∀ e ∈ (CollisionDetector.update s g hasHands fts foods now).2.2.2,
        e.targetId ≠ u)
    ∧ (CollisionDetector.update s g hasHands fts foods now).1.slicedFoods u
        = some d := by
  cases hasHands with
  | false =>
      constructor
      · intro e he
        simp [CollisionDetector.update] at he
      · show (s.clearCollisionStatus now).slicedFoods u = some d
        rw [clearCollisionStatus_slicedFoods]
        exact hsd
  | true =>
      rw [update_true_eq]
      obtain ⟨hkeep, hnoev⟩ := checkLoop_blocked fts now u d h2 foods.length
        foods 0 s g [] false (by omega) hsd
      constructor
      · intro e he hid
        rcases hnoev e (by rw [← checkCollisions_events]; exact he) with
          hmem | hne
        · simp at hmem
        · exact hne hid
      · show ((((s.checkCollisions g fts foods now).1.cleanupSlicedFoods
          now).cleanupRecentSlices now).cleanupBoundingBoxCache
          now).slicedFoods u = some d
        have : ((s.checkCollisions g fts foods now).1.cleanupSlicedFoods
            now).slicedFoods u = some d := by
          apply cleanupSlicedFoods_keep
          · rw [checkCollisions_slicedFoods]
            exact hkeep
          · intro hgt
            rw [collisionCooldown] at h2 hgt
            linarith
        exact this

/-- A young cooldown record survives a run of frames whose timestamps
stay within the cooldown window. -/
theorem foldFrames_keep (u : String) (d : SliceData) :
    ∀ (frames : List Frame) (p : CollisionDetector × GameLogic),
      p.1.slicedFoods u = some d →
      (∀ fr ∈ frames, d.time ≤ fr.now
        ∧ fr.now - d.time < collisionCooldown) →
      (frames.foldl stepFrame p).1.slicedFoods u = some d := by
  intro frames
  induction frames with
  | nil =>
      intro p hp _
      exact hp
  | cons fr rest ih =>
      intro p hp hall
      rw [List.foldl_cons]
      apply ih
      · exact (update_blocked p.1 p.2 fr.hasHands fr.fingertips fr.foods
          fr.now u d hp (hall fr (by simp)).1 (hall fr (by simp)).2).2
      · exact fun fr' h' => hall fr' (by simp [h'])

instance : IsTrans Frame (fun a b => a.now ≤ b.now) :=
  ⟨fun _ _ _ h1 h2 => le_trans h1 h2⟩

/-- C3: once an `update` emits a slice event for a target at time `t`, no
later `update` within the cooldown window (`t' - t < collisionCooldown`,
timestamps non-decreasing) emits a second slice event for the same
target, however its fingertips and foods look: the cooldown record keeps
the target skipped by collision testing. -/
theorem C3_cooldown (s : CollisionDetector) (g : GameLogic) (f0 : Frame)
    (frames : List Frame) (f1 : Frame) (u : String)
    (hmono : List.Chain' (fun a b => a.now ≤ b.now) (f0 :: (frames ++ [f1])))
    (hwin : f1.now - f0.now < collisionCooldown)
    (hemit : u ∈ (frameEvents (s, g) f0).map SliceEvent.targetId) :
    u ∉ (frameEvents (frames.foldl stepFrame (stepFrame (s, g) f0))
        f1).map SliceEvent.targetId := by
  have hpw : List.Pairwise (fun a b : Frame => a.now ≤ b.now)
      (f0 :: (frames ++ [f1])) := List.chain'_iff_pairwise.mp hmono
  rw [List.pairwise_cons] at hpw
  have hge : ∀ fr ∈ frames ++ [f1], f0.now ≤ fr.now := hpw.1
  have hpw2 := hpw.2
  rw [List.pairwise_append] at hpw2
  have hle1 : ∀ fr ∈ frames, fr.now ≤ f1.now := fun fr hf =>
    hpw2.2.2 fr hf f1 (by simp)
  obtain ⟨rec, hrec, hrt⟩ := update_mark s g f0.hasHands f0.fingertips
    f0.foods f0.now u hemit
  have hkeep := foldFrames_keep u rec frames (stepFrame (s, g) f0) hrec ?bounds
  · intro hmem
    rw [List.mem_map] at hmem
    obtain ⟨e, hein, heid⟩ := hmem
    exact (update_blocked _ _ f1.hasHands f1.fingertips f1.foods f1.now u rec
      hkeep (by rw [hrt]; exact hge f1 (by simp)) (by rw [hrt]; exact hwin)).1
      e hein heid
  case bounds =>
    intro fr hf
    refine ⟨by rw [hrt]; exact hge fr (List.mem_append.mpr (Or.inl hf)), ?_⟩
    rw [hrt]
    have h1 := hle1 fr hf
    rw [collisionCooldown] at hwin ⊢
    linarith

/-- When the processed food is not in cooldown, `processFood` emits a
slice event exactly when some fingertip is contained in the food's
(possibly cached) expanded bounding box with velocity at or above the
threshold. -/
theorem processFood_some_iff (fts : List CFingertip) (now : ℚ)
    (s : CollisionDetector) (g : GameLogic) (foods : List Food) (i : ℕ)
    (food : Food) (cd : Bool)
    (hcd : inCooldown s food.uuid now = false) :
    (∃ e, (processFood fts now s g foods i food cd).2.2.2.1 = some e)
      ↔ ∃ ft ∈ fts,
          (s.getFoodBoundingBox food now).1.containsPoint ft.position
            ∧ ft.velocity ≥ s.velocityThreshold := by
  simp only [processFood]
  rw [if_neg (by simp [hcd])]
  rcases hfl : fingertipLoop (s.getFoodBoundingBox food now).1
      (s.getFoodBoundingBox food now).2.velocityThreshold food now fts
      (s.getFoodBoundingBox food now).2 cd with ⟨s2, cd2, ev⟩
  have hiff := fingertipLoop_some_iff (s.getFoodBoundingBox food now).1
    (s.getFoodBoundingBox food now).2.velocityThreshold food now fts
    (s.getFoodBoundingBox food now).2 cd
  rw [hfl, (getFoodBoundingBox_state s food now).2.1] at hiff
  rw [← hiff]
  cases ev with
  | none => simp
  | some ft => simp

/-- The food loop only appends events. -/
theorem checkLoop_events_prefix (fts : List CFingertip) (now : ℚ) :
    ∀ (n : ℕ) (foods : List Food) (i : ℕ) (s : CollisionDetector)
      (g : GameLogic) (events : List SliceEvent) (cd : Bool),
      foods.length - i ≤ n →
      ∃ l, (checkLoop fts now foods i s g events cd).2.2.2.1
        = events ++ l := by
  intro n
  induction n with
  | zero =>
      intro foods i s g events cd hn
      rw [checkLoop_eq, dif_neg (by omega)]
      exact ⟨[], by simp⟩
  | succ n ih =>
      intro foods i s g events cd hn
      by_cases h : i < foods.length
      · rw [checkLoop_eq, dif_pos h]
        dsimp only
        rcases hR : processFood fts now s g foods i (foods.get ⟨i, h⟩) cd
          with ⟨s', g', foods', ev', cd'⟩
        have hlen := processFood_length_le fts now s g foods i
          (foods.get ⟨i, h⟩) cd
        rw [hR] at hlen
        obtain ⟨l, hl⟩ := ih foods' (i + 1) s' g' (events ++ ev'.toList) cd'
          (by simp at hlen; omega)
        exact ⟨ev'.toList ++ l, by rw [hl, List.append_assoc]⟩
      · rw [checkLoop_eq, dif_neg h]
        exact ⟨[], by simp⟩

/-- A fast fingertip at the origin. -/
noncomputable def ftFast : CFingertip :=
  { position := ⟨0, 0, 0⟩, type := "index", handedness := "Right",
    velocity := 1, id := "0_8" }

/-- A concrete apple target with a unit mesh box. -/
noncomputable def appleFood : Food :=
  { uuid := "A", type := "apple", category := "fruit",
    meshBox := { min := ⟨-1, -1, -1⟩, max := ⟨1, 1, 1⟩ } }

/-- Witness for C3: at time 1000 the apple is sliced; at time 1100 — with
the fingertip still inside its volume — no second event is emitted. -/
theorem C3_witness :
    "A" ∈ (frameEvents (initCollisionDetector, initGameLogic)
        { hasHands := true, fingertips := [ftFast], foods := [appleFood],
          now := 1000 }).map SliceEvent.targetId
    ∧ "A" ∉ (frameEvents ([].foldl stepFrame
          (stepFrame (initCollisionDetector, initGameLogic)
            { hasHands := true, fingertips := [ftFast], foods := [appleFood],
              now := 1000 }))
        { hasHands := true, fingertips := [ftFast], foods := [appleFood],
          now := 1100 }).map SliceEvent.targetId := by
  have hcd : inCooldown initCollisionDetector appleFood.uuid 1000 = false :=
    rfl
  have hfast : ∃ ft ∈ [ftFast],
      (initCollisionDetector.getFoodBoundingBox appleFood
        1000).1.containsPoint ft.position
      ∧ ft.velocity ≥ initCollisionDetector.velocityThreshold := by
    refine ⟨ftFast, by simp, ?_, ?_⟩
    · have hb : (initCollisionDetector.getFoodBoundingBox appleFood 1000).1
          = appleFood.meshBox.expandByScalar (getFoodExpansion "apple") := by
        simp [CollisionDetector.getFoodBoundingBox, initCollisionDetector,
          appleFood]
      rw [hb]
      norm_num [Box3.containsPoint, Box3.expandByScalar, appleFood,
        getFoodExpansion, ftFast]
    · norm_num [ftFast, initCollisionDetector]
  obtain ⟨e, he⟩ := (processFood_some_iff [ftFast] 1000 initCollisionDetector
    initGameLogic [appleFood] 0 appleFood false hcd).mpr hfast
  have hemit : "A" ∈ (frameEvents (initCollisionDetector, initGameLogic)
      { hasHands := true, fingertips := [ftFast], foods := [appleFood],
        now := 1000 }).map SliceEvent.targetId := by
    show "A" ∈ ((CollisionDetector.update initCollisionDetector initGameLogic
      true [ftFast] [appleFood] 1000).2.2.2).map SliceEvent.targetId
    rw [update_true_eq, checkCollisions_events, checkLoop_eq,
      dif_pos (by simp)]
    dsimp only
    obtain ⟨l, hl⟩ := checkLoop_events_prefix [ftFast] 1000 1
      (processFood [ftFast] 1000 initCollisionDetector initGameLogic
        [appleFood] 0 ([appleFood].get ⟨0, by simp⟩) false).2.2.1 1
      (processFood [ftFast] 1000 initCollisionDetector initGameLogic
        [appleFood] 0 ([appleFood].get ⟨0, by simp⟩) false).1
      (processFood [ftFast] 1000 initCollisionDetector initGameLogic
        [appleFood] 0 ([appleFood].get ⟨0, by simp⟩) false).2.1
      ([] ++ (processFood [ftFast] 1000 initCollisionDetector initGameLogic
        [appleFood] 0 ([appleFood].get ⟨0, by simp⟩) false).2.2.2.1.toList)
      (processFood [ftFast] 1000 initCollisionDetector initGameLogic
        [appleFood] 0 ([appleFood].get ⟨0, by simp⟩) false).2.2.2.2
      (by have := processFood_length_le [ftFast] 1000 initCollisionDetector
            initGameLogic [appleFood] 0 ([appleFood].get ⟨0, by simp⟩) false
          simp at this ⊢
          omega)
    rw [hl]
    have hget : [appleFood].get ⟨0, by simp⟩ = appleFood := rfl
    rw [hget] at *
    rw [he]
    have htid := processFood_event_targetId [ftFast] 1000
      initCollisionDetector initGameLogic [appleFood] 0 appleFood false e he
    simp [htid, appleFood]
  refine ⟨hemit, ?_⟩
  exact C3_cooldown initCollisionDetector initGameLogic _ [] _ "A"
    (by norm_num [List.chain'_cons]) (by norm_num [collisionCooldown]) hemit

/-- C4: for a processed (non-cooldown) target, a slice occurs exactly
when some contained fingertip is at or above the velocity threshold; a
containment by fingertips all strictly below the threshold produces no
slice event, does not remove the target, does not change the game state
(score included), leaves the cooldown map unchanged, and is recorded
only as a touch (`wasSliced = false`) in the collision status. -/
theorem C4_velocity_gate (fts : List CFingertip) (now : ℚ)
    (s : CollisionDetector) (g : GameLogic) (foods : List Food) (i : ℕ)
    (food : Food) (cd : Bool)
    (hcd : inCooldown s food.uuid now = false) :
    ((∃ e, (processFood fts now s g foods i food cd).2.2.2.1 = some e)
      ↔ ∃ ft ∈ fts,
          (s.getFoodBoundingBox food now).1.containsPoint ft.position
            ∧ ft.velocity ≥ s.velocityThreshold)
    ∧ ((∀ ft ∈ fts,
          (s.getFoodBoundingBox food now).1.containsPoint ft.position →
            ft.velocity < s.velocityThreshold) →
        (processFood fts now s g foods i food cd).2.2.2.1 = none
        ∧ (processFood fts now s g foods i food cd).2.2.1 = foods
        ∧ (processFood fts now s g foods i food cd).2.1 = g
        ∧ (processFood fts now s g foods i food cd).1.slicedFoods
            = s.slicedFoods
        ∧ ((∃ ft ∈ fts,
              (s.getFoodBoundingBox food now).1.containsPoint ft.position) →
            ∃ info, (processFood fts now s g foods i food
                cd).1.lastCollisionInfo = some info
              ∧ info.wasSliced = false)) := by
  refine ⟨processFood_some_iff fts now s g foods i food cd hcd, ?_⟩
  intro hslow
  have hslow' : ∀ ft ∈ fts,
      (s.getFoodBoundingBox food now).1.containsPoint ft.position →
      ft.velocity < (s.getFoodBoundingBox food now).2.velocityThreshold := by
    intro ft hm hc
    rw [(getFoodBoundingBox_state s food now).2.1]
    exact hslow ft hm hc
  simp only [processFood]
  rw [if_neg (by simp [hcd])]
  rcases hfl : fingertipLoop (s.getFoodBoundingBox food now).1
      (s.getFoodBoundingBox food now).2.velocityThreshold food now fts
      (s.getFoodBoundingBox food now).2 cd with ⟨s2, cd2, ev⟩
  cases ev with
  | some ft =>
      exfalso
      have hiff := fingertipLoop_some_iff (s.getFoodBoundingBox food now).1
        (s.getFoodBoundingBox food now).2.velocityThreshold food now fts
        (s.getFoodBoundingBox food now).2 cd
      rw [hfl] at hiff
      obtain ⟨ft', hmem, hcon, hvel⟩ := hiff.mp ⟨ft, rfl⟩
      rw [(getFoodBoundingBox_state s food now).2.1] at hvel
      exact absurd hvel (not_le.mpr (hslow ft' hmem hcon))
  | none =>
      refine ⟨rfl, rfl, rfl, ?_, ?_⟩
      · have h1 := fingertipLoop_slicedFoods (s.getFoodBoundingBox food
          now).1 (s.getFoodBoundingBox food now).2.velocityThreshold food now
          fts (s.getFoodBoundingBox food now).2 cd
        rw [hfl] at h1
        exact h1.trans (getFoodBoundingBox_state s food now).1
      · rintro ⟨ft, hmem, hcon⟩
        have h2 := fingertipLoop_touch (s.getFoodBoundingBox food now).1
          (s.getFoodBoundingBox food now).2.velocityThreshold food now fts
          (s.getFoodBoundingBox food now).2 cd hslow'
          (Or.inl ⟨ft, hmem, hcon⟩)
        rw [hfl] at h2
        exact h2

/-- A slow fingertip at the origin. -/
noncomputable def ftSlow : CFingertip :=
  { position := ⟨0, 0, 0⟩, type := "index", handedness := "Right",
    velocity := 0.1, id := "0_8" }

/-- Witness for C4: a slow fingertip inside the apple's expanded box
yields no event, no removal, no game-state change, and a touch status. -/
theorem C4_witness :
    (processFood [ftSlow] 1000 initCollisionDetector initGameLogic
        [appleFood] 0 appleFood false).2.2.2.1 = none
    ∧ (processFood [ftSlow] 1000 initCollisionDetector initGameLogic
        [appleFood] 0 appleFood false).2.2.1 = [appleFood]
    ∧ (processFood [ftSlow] 1000 initCollisionDetector initGameLogic
        [appleFood] 0 appleFood false).2.1 = initGameLogic
    ∧ ∃ info, (processFood [ftSlow] 1000 initCollisionDetector initGameLogic
        [appleFood] 0 appleFood false).1.lastCollisionInfo = some info
        ∧ info.wasSliced = false := by
  have hcontain : (initCollisionDetector.getFoodBoundingBox appleFood
      1000).1.containsPoint ftSlow.position := by
    have hb : (initCollisionDetector.getFoodBoundingBox appleFood 1000).1
        = appleFood.meshBox.expandByScalar (getFoodExpansion "apple") := by
      simp [CollisionDetector.getFoodBoundingBox, initCollisionDetector,
        appleFood]
    rw [hb]
    norm_num [Box3.containsPoint, Box3.expandByScalar, appleFood,
      getFoodExpansion, ftSlow]
  have hslow : ∀ ft ∈ [ftSlow],
      (initCollisionDetector.getFoodBoundingBox appleFood
        1000).1.containsPoint ft.position →
      ft.velocity < initCollisionDetector.velocityThreshold := by
    intro ft hm _
    simp at hm
    rw [hm]
    norm_num [ftSlow, initCollisionDetector]
  have h := (C4_velocity_gate [ftSlow] 1000 initCollisionDetector
    initGameLogic [appleFood] 0 appleFood false rfl).2 hslow
  exact ⟨h.1, h.2.1, h.2.2.1, h.2.2.2.2 ⟨ftSlow, by simp, hcontain⟩⟩
